import Mathlib

/-!
# Tadpole hub: connection registry and routing (`main.go`)

A shallow embedding of `ClientManager.start`, `ClientManager.send`,
`ClientRead.read` and `ClientRead.write`, together with the part of
`encoding/json` those functions call, followed by theorems about them.

Conventions of the embedding:

* a `[]byte` frame and a Go `string` are both a Lean `String` (UTF-8 text);
* a `*ClientRead` is a value carrying its address and its `id` field, which is
  never reassigned after `wsPage` builds the struct;
* `ClientManager.clients` (a `map[*ClientRead]bool` whose values are all
  `true`) is the list of its keys; `range` visits the keys in list order.  Each
  fan-out loop sends one frame to each key on that key's own channel, so what
  every session receives does not depend on the order of the visit;
* `ClientRead.send` is an unbuffered channel: its only state is open/closed.
  A completed send is recorded as a `Delivery` in the handler's output; a send
  on a closed channel, or a second `close`, is a Go panic, which ends the
  process;
* the `log` calls write to standard error and are left out.
-/

namespace Tadpole

/-! ## The fragment of `encoding/json` used by the hub -/

/-- A parsed JSON value.  A number keeps its lexeme: the hub never reads one. -/
inductive JVal where
  | null : JVal
  | bool (b : Bool) : JVal
  | num (lexeme : String) : JVal
  | str (s : String) : JVal
  | arr (elems : List JVal) : JVal
  | obj (members : List (String × JVal)) : JVal

/-- The error value returned by `json.Unmarshal`. -/
inductive JsonError where
  | syntaxError : JsonError
  | unmarshalTypeError : JsonError
deriving DecidableEq, Repr

/-- JSON insignificant whitespace. -/
def isSpace (c : Char) : Bool :=
  c = ' ' || c = '\t' || c = '\r' || c = '\n'

/-- Drop leading whitespace. -/
def skipSpace : List Char → List Char
  | [] => []
  | c :: cs => if isSpace c then skipSpace cs else c :: cs

/-- Value of a hexadecimal digit. -/
def hexVal (c : Char) : Option Nat :=
  if '0' ≤ c ∧ c ≤ '9' then some (c.toNat - '0'.toNat)
  else if 'a' ≤ c ∧ c ≤ 'f' then some (c.toNat - 'a'.toNat + 10)
  else if 'A' ≤ c ∧ c ≤ 'F' then some (c.toNat - 'A'.toNat + 10)
  else none

/-- Four hexadecimal digits as a number (`getu4` without the `\u` prefix). -/
def hex4 : List Char → Option (Nat × List Char)
  | a :: b :: c :: d :: rest =>
    match hexVal a, hexVal b, hexVal c, hexVal d with
    | some x, some y, some z, some w => some (((x * 16 + y) * 16 + z) * 16 + w, rest)
    | _, _, _, _ => none
  | _ => none

/-- Whether a code unit is a UTF-16 surrogate (`utf16.IsSurrogate`). -/
def isSurrogate (r : Nat) : Bool := 0xd800 ≤ r && r < 0xe000

/-- The rune of a surrogate pair, when the pair is valid (`utf16.DecodeRune`). -/
def decodeSurrogates (r1 r2 : Nat) : Option Nat :=
  if 0xd800 ≤ r1 ∧ r1 < 0xdc00 ∧ 0xdc00 ≤ r2 ∧ r2 < 0xe000 then
    some ((r1 - 0xd800) * 1024 + (r2 - 0xdc00) + 0x10000)
  else none

/-- The low half following a high surrogate: a second `\uXXXX` that pairs with `r1`. -/
def pairedLow (r1 : Nat) : List Char → Option (Nat × List Char)
  | '\\' :: 'u' :: rest =>
    match hex4 rest with
    | some (r2, rest2) =>
      match decodeSurrogates r1 r2 with
      | some dec => some (dec, rest2)
      | none => none
    | none => none
  | _ => none

/-- The character named by a one-letter escape. -/
def escapeChar (c : Char) : Option Char :=
  if c = '"' then some '"'
  else if c = '\\' then some '\\'
  else if c = '/' then some '/'
  else if c = 'b' then some (Char.ofNat 8)
  else if c = 'f' then some (Char.ofNat 12)
  else if c = 'n' then some '\n'
  else if c = 'r' then some '\r'
  else if c = 't' then some '\t'
  else none

/-- Scan and decode a string literal after its opening quote: the decoded
characters and the input after the closing quote.  Every step consumes input, so
a fuel above the input length is never exhausted. -/
def unquoteFrom : Nat → List Char → Option (List Char × List Char)
  | 0, _ => none
  | _ + 1, [] => none
  | fuel + 1, c :: rest =>
    if c = '"' then some ([], rest)
    else if c = '\\' then
      match rest with
      | [] => none
      | e :: rest1 =>
        if e = 'u' then
          match hex4 rest1 with
          | none => none
          | some (rr, rest2) =>
            if isSurrogate rr then
              match pairedLow rr rest2 with
              | some (dec, rest3) =>
                (unquoteFrom fuel rest3).map (fun p => (Char.ofNat dec :: p.1, p.2))
              | none =>
                (unquoteFrom fuel rest2).map (fun p => (Char.ofNat 0xfffd :: p.1, p.2))
            else (unquoteFrom fuel rest2).map (fun p => (Char.ofNat rr :: p.1, p.2))
        else
          match escapeChar e with
          | none => none
          | some x => (unquoteFrom fuel rest1).map (fun p => (x :: p.1, p.2))
    else if c.toNat < 0x20 then none
    else (unquoteFrom fuel rest).map (fun p => (c :: p.1, p.2))

/-- Split off the longest prefix of decimal digits. -/
def takeDigits : List Char → List Char × List Char
  | [] => ([], [])
  | c :: cs =>
    if c.isDigit then ((takeDigits cs).1.cons c, (takeDigits cs).2) else ([], c :: cs)

/-- The integer part of a number: `0`, or a nonzero digit and more digits. -/
def scanInt : List Char → Option (List Char × List Char)
  | [] => none
  | c :: cs =>
    if c = '0' then some (['0'], cs)
    else if c.isDigit then some (c :: (takeDigits cs).1, (takeDigits cs).2)
    else none

/-- An optional fraction: a dot and at least one digit. -/
def scanFrac : List Char → Option (List Char × List Char)
  | '.' :: cs =>
    match takeDigits cs with
    | ([], _) => none
    | (ds, rest) => some ('.' :: ds, rest)
  | cs => some ([], cs)

/-- The digits of an exponent, after its optional sign. -/
def scanExpDigits (pre : List Char) (cs : List Char) : Option (List Char × List Char) :=
  match takeDigits cs with
  | ([], _) => none
  | (ds, rest) => some (pre ++ ds, rest)

/-- An optional exponent: `e` or `E`, an optional sign and at least one digit. -/
def scanExp : List Char → Option (List Char × List Char)
  | [] => some ([], [])
  | c :: cs =>
    if c = 'e' ∨ c = 'E' then
      match cs with
      | [] => none
      | s :: cs1 =>
        if s = '+' ∨ s = '-' then scanExpDigits [c, s] cs1 else scanExpDigits [c] (s :: cs1)
    else some ([], c :: cs)

/-- A number literal without its sign. -/
def scanUnsigned (cs : List Char) : Option (List Char × List Char) :=
  match scanInt cs with
  | none => none
  | some (i, r1) =>
    match scanFrac r1 with
    | none => none
    | some (f, r2) =>
      match scanExp r2 with
      | none => none
      | some (e, r3) => some (i ++ f ++ e, r3)

/-- A number literal: its lexeme and the remaining input. -/
def scanNumber : List Char → Option (List Char × List Char)
  | '-' :: cs => (scanUnsigned cs).map (fun p => ('-' :: p.1, p.2))
  | cs => scanUnsigned cs

/-- What the parser is reading: a value, the rest of an array after `[`, or the
rest of an object after `{`. -/
inductive Goal where
  | value : Goal
  | elems (acc : List JVal) : Goal
  | members (acc : List (String × JVal)) : Goal

/-- Recursive-descent JSON parser.  The input of every call starts at a
significant character.  Two nested calls never pass without a character being
consumed, so a fuel above twice the input length is never exhausted. -/
def parseGoal : Nat → Goal → List Char → Option (JVal × List Char)
  | 0, _, _ => none
  | _ + 1, _, [] => none
  | fuel + 1, .value, c :: cs =>
    if c = '{' then
      match skipSpace cs with
      | '}' :: rest => some (.obj [], rest)
      | rest => parseGoal fuel (.members []) rest
    else if c = '[' then
      match skipSpace cs with
      | ']' :: rest => some (.arr [], rest)
      | rest => parseGoal fuel (.elems []) rest
    else if c = '"' then
      (unquoteFrom (cs.length + 1) cs).map (fun p => (.str (String.mk p.1), p.2))
    else if c = 't' then
      match cs with
      | 'r' :: 'u' :: 'e' :: rest => some (.bool true, rest)
      | _ => none
    else if c = 'f' then
      match cs with
      | 'a' :: 'l' :: 's' :: 'e' :: rest => some (.bool false, rest)
      | _ => none
    else if c = 'n' then
      match cs with
      | 'u' :: 'l' :: 'l' :: rest => some (.null, rest)
      | _ => none
    else (scanNumber (c :: cs)).map (fun p => (.num (String.mk p.1), p.2))
  | fuel + 1, .elems acc, c :: cs =>
    match parseGoal fuel .value (c :: cs) with
    | none => none
    | some (v, rest) =>
      match skipSpace rest with
      | ',' :: rest1 => parseGoal fuel (.elems (acc ++ [v])) (skipSpace rest1)
      | ']' :: rest1 => some (.arr (acc ++ [v]), rest1)
      | _ => none
  | fuel + 1, .members acc, c :: cs =>
    if c = '"' then
      match unquoteFrom (cs.length + 1) cs with
      | none => none
      | some (k, rest) =>
        match skipSpace rest with
        | ':' :: rest1 =>
          match parseGoal fuel .value (skipSpace rest1) with
          | none => none
          | some (v, rest2) =>
            match skipSpace rest2 with
            | ',' :: rest3 =>
              parseGoal fuel (.members (acc ++ [(String.mk k, v)])) (skipSpace rest3)
            | '}' :: rest3 => some (.obj (acc ++ [(String.mk k, v)]), rest3)
            | _ => none
        | _ => none
    else none

/-- Parse a whole document: one value between optional whitespace
(`checkValid` followed by the decoder's scan).  The decoder's bound on the
nesting depth (ten thousand levels) is left out. -/
def parseJson (data : String) : Option JVal :=
  match parseGoal (2 * data.data.length + 2) .value (skipSpace data.data) with
  | none => none
  | some (v, rest) => if skipSpace rest = [] then some v else none

/-- Case folding of one rune, as far as it can make a key equal to an ASCII
field name: ASCII letters, the long s and the Kelvin sign. -/
def foldRune (c : Char) : Char :=
  if 'A' ≤ c ∧ c ≤ 'Z' then Char.ofNat (c.toNat + 32)
  else if c = Char.ofNat 0x17f then 's'
  else if c = Char.ofNat 0x212a then 'k'
  else c

/-- Case folding of an object key. -/
def foldName (s : String) : String := String.mk (s.data.map foldRune)

/-- The struct field an object key selects: an exact match of the `json` tag
first, a case-insensitive match otherwise. -/
def findField (names : List String) (key : String) : Option String :=
  match names.find? (fun n => n = key) with
  | some n => some n
  | none => names.find? (fun n => foldName n = foldName key)

/-- Decode one member of an object into a struct whose fields are all strings:
an unknown key is skipped, a string is stored, `null` leaves the field alone,
and any other value records an `UnmarshalTypeError`. -/
def decodeMember {T : Type} (names : List String) (set : T → String → String → T)
    (acc : T × Option JsonError) (member : String × JVal) : T × Option JsonError :=
  match findField names member.1 with
  | none => acc
  | some f =>
    match member.2 with
    | .str s => (set acc.1 f s, acc.2)
    | .null => acc
    | _ => (acc.1, some .unmarshalTypeError)

/-- Decode the members of an object in order; decoding goes on after a type
error. -/
def decodeMembers {T : Type} (names : List String) (set : T → String → String → T)
    (members : List (String × JVal)) (acc : T × Option JsonError) : T × Option JsonError :=
  members.foldl (decodeMember names set) acc

/-- The function `json.Unmarshal(data, &target)` for a struct of string fields:
a syntax error leaves the target untouched, `null` is accepted and changes
nothing, an object is decoded member by member, anything else is a type
error. -/
def unmarshalStruct {T : Type} (names : List String) (set : T → String → String → T)
    (data : String) (target : T) : T × Option JsonError :=
  match parseJson data with
  | none => (target, some .syntaxError)
  | some .null => (target, none)
  | some (.obj members) => decodeMembers names set members (target, none)
  | some _ => (target, some .unmarshalTypeError)

/-- Lower-case hexadecimal digit. -/
def hexDigit (n : Nat) : Char :=
  if n < 10 then Char.ofNat ('0'.toNat + n) else Char.ofNat ('a'.toNat + (n - 10))

/-- How `json.Marshal` writes one character of a string (HTML escaping on, as
`Marshal` has it; backspace and form feed by their short escapes, as current
toolchains do). -/
def quoteChar (c : Char) : List Char :=
  if c = '"' then ['\\', '"']
  else if c = '\\' then ['\\', '\\']
  else if c = '\n' then ['\\', 'n']
  else if c = '\r' then ['\\', 'r']
  else if c = '\t' then ['\\', 't']
  else if c = Char.ofNat 8 then ['\\', 'b']
  else if c = Char.ofNat 12 then ['\\', 'f']
  else if c.toNat < 0x20 ∨ c = '<' ∨ c = '>' ∨ c = '&' then
    ['\\', 'u', '0', '0', hexDigit (c.toNat / 16), hexDigit (c.toNat % 16)]
  else if c = Char.ofNat 0x2028 then ['\\', 'u', '2', '0', '2', '8']
  else if c = Char.ofNat 0x2029 then ['\\', 'u', '2', '0', '2', '9']
  else [c]

/-- A Go string as a JSON string literal. -/
def quote (s : String) : String :=
  String.mk ('"' :: (s.data.map quoteChar).flatten ++ ['"'])

/-! ## The payload types of `main.go` -/

/-- Constant `LoginType`. -/
def LoginType : String := "login"

/-- Constant `UpdateType`. -/
def UpdateType : String := "update"

/-- Constant `MessageType`. -/
def MessageType : String := "message"

/-- Struct `Message`: the envelope a read loop builds (all fields `omitempty`). -/
structure Message where
  Sender : String := ""
  Recipient : String := ""
  Content : String := ""
deriving DecidableEq, Repr

/-- Struct `Welcome`. -/
structure Welcome where
  Type_ : String := ""
  Id : String := ""
deriving DecidableEq, Repr

/-- Struct `ReceiveMessage`: the envelope as the control loop decodes it. -/
structure ReceiveMessage where
  Sender : String := ""
  Content : String := ""
deriving DecidableEq, Repr

/-- Struct `SendChatInfo`. -/
structure SendChatInfo where
  Type_ : String := ""
  Id : String := ""
  Message : String := ""
deriving DecidableEq, Repr

/-- Struct `LocationInfo`. -/
structure LocationInfo where
  Type_ : String := ""
  Id : String := ""
  Momentum : String := ""
  Angle : String := ""
  X : String := ""
  Y : String := ""
  Name : String := ""
  Sex : String := ""
  Icon : String := ""
deriving DecidableEq, Repr

/-- Struct `SendOffline`. -/
structure SendOffline where
  Type_ : String := ""
  Id : String := ""
deriving DecidableEq, Repr

/-- The `json` tags of `ReceiveMessage`. -/
def ReceiveMessage.tags : List String := ["sender", "content"]

/-- Store a decoded string in the field of `ReceiveMessage` with the given tag. -/
def ReceiveMessage.setField (t : ReceiveMessage) (tag s : String) : ReceiveMessage :=
  if tag = "sender" then { t with Sender := s }
  else if tag = "content" then { t with Content := s }
  else t

/-- The `json` tags of `SendChatInfo`. -/
def SendChatInfo.tags : List String := ["type", "id", "message"]

/-- Store a decoded string in the field of `SendChatInfo` with the given tag. -/
def SendChatInfo.setField (t : SendChatInfo) (tag s : String) : SendChatInfo :=
  if tag = "type" then { t with Type_ := s }
  else if tag = "id" then { t with Id := s }
  else if tag = "message" then { t with Message := s }
  else t

/-- The `json` tags of `LocationInfo`. -/
def LocationInfo.tags : List String :=
  ["type", "id", "momentum", "angle", "x", "y", "name", "sex", "icon"]

/-- Store a decoded string in the field of `LocationInfo` with the given tag. -/
def LocationInfo.setField (t : LocationInfo) (tag s : String) : LocationInfo :=
  if tag = "type" then { t with Type_ := s }
  else if tag = "id" then { t with Id := s }
  else if tag = "momentum" then { t with Momentum := s }
  else if tag = "angle" then { t with Angle := s }
  else if tag = "x" then { t with X := s }
  else if tag = "y" then { t with Y := s }
  else if tag = "name" then { t with Name := s }
  else if tag = "sex" then { t with Sex := s }
  else if tag = "icon" then { t with Icon := s }
  else t

/-- The call `json.Unmarshal(data, &target)` with a `ReceiveMessage` target. -/
def unmarshalReceiveMessage (data : String) (target : ReceiveMessage) :
    ReceiveMessage × Option JsonError :=
  unmarshalStruct ReceiveMessage.tags ReceiveMessage.setField data target

/-- The call `json.Unmarshal(data, &target)` with a `LocationInfo` target. -/
def unmarshalLocationInfo (data : String) (target : LocationInfo) :
    LocationInfo × Option JsonError :=
  unmarshalStruct LocationInfo.tags LocationInfo.setField data target

/-- The call `json.Unmarshal(data, &target)` with a `SendChatInfo` target. -/
def unmarshalSendChatInfo (data : String) (target : SendChatInfo) :
    SendChatInfo × Option JsonError :=
  unmarshalStruct SendChatInfo.tags SendChatInfo.setField data target

/-- The call `json.Marshal` on a `Welcome`. -/
def marshalWelcome (v : Welcome) : String :=
  "\x7b\"type\":" ++ quote v.Type_ ++ ",\"id\":" ++ quote v.Id ++ "\x7d"

/-- The call `json.Marshal` on a `SendOffline`. -/
def marshalSendOffline (v : SendOffline) : String :=
  "\x7b\"type\":" ++ quote v.Type_ ++ ",\"id\":" ++ quote v.Id ++ "\x7d"

/-- The call `json.Marshal` on a `SendChatInfo`. -/
def marshalSendChatInfo (v : SendChatInfo) : String :=
  "\x7b\"type\":" ++ quote v.Type_ ++ ",\"id\":" ++ quote v.Id
    ++ ",\"message\":" ++ quote v.Message ++ "\x7d"

/-- The call `json.Marshal` on a `LocationInfo`. -/
def marshalLocationInfo (v : LocationInfo) : String :=
  "\x7b\"type\":" ++ quote v.Type_ ++ ",\"id\":" ++ quote v.Id
    ++ ",\"momentum\":" ++ quote v.Momentum ++ ",\"angle\":" ++ quote v.Angle
    ++ ",\"x\":" ++ quote v.X ++ ",\"y\":" ++ quote v.Y
    ++ ",\"name\":" ++ quote v.Name ++ ",\"sex\":" ++ quote v.Sex
    ++ ",\"icon\":" ++ quote v.Icon ++ "\x7d"

/-- The members `json.Marshal` writes for a `Message`: an empty field is omitted. -/
def Message.members (v : Message) : List String :=
  (if v.Sender = "" then [] else ["\"sender\":" ++ quote v.Sender])
    ++ (if v.Recipient = "" then [] else ["\"recipient\":" ++ quote v.Recipient])
    ++ (if v.Content = "" then [] else ["\"content\":" ++ quote v.Content])

/-- The call `json.Marshal` on a `*Message`. -/
def marshalMessage (v : Message) : String :=
  "\x7b" ++ ",".intercalate v.members ++ "\x7d"

/-! ## Sessions, the registry and the control loop -/

/-- A `*ClientRead`: the address of the struct and its `id` field.  The `send`
channel of the struct is identified with the session; the `socket` is the
source of the read loop's input and the sink of the write loop's output. -/
structure ClientRead where
  addr : Nat
  id : String
deriving DecidableEq, Repr

/-- The struct `ClientManager`: the keys of `clients`, and the sessions whose
`send` channel has been closed.  The channels `register`, `unregister` and
`broadcast` carry the events the control loop handles. -/
structure ClientManager where
  clients : List ClientRead := []
  closed : List ClientRead := []
deriving DecidableEq, Repr

/-- One completed send `conn.send <- frame`. -/
structure Delivery where
  conn : ClientRead
  frame : String
deriving DecidableEq, Repr

/-- The control-loop goroutine part-way through its work: the manager, the
sends completed so far, and whether a panic has ended the process. -/
structure Proc where
  mgr : ClientManager
  sent : List Delivery := []
  panicked : Bool := false
deriving DecidableEq, Repr

/-- What arrives on one of the manager's three channels. -/
inductive Event where
  | register (conn : ClientRead) : Event
  | unregister (conn : ClientRead) : Event
  | broadcast (message : String) : Event
deriving DecidableEq, Repr

/-- The statement `conn.send <- message`: a panic when the channel is closed. -/
def Proc.send (p : Proc) (conn : ClientRead) (message : String) : Proc :=
  if p.panicked then p
  else if conn ∈ p.mgr.closed then { p with panicked := true }
  else { p with sent := p.sent ++ [⟨conn, message⟩] }

/-- The statement `close(conn.send)`: a panic when the channel is closed already. -/
def Proc.close (p : Proc) (conn : ClientRead) : Proc :=
  if p.panicked then p
  else if conn ∈ p.mgr.closed then { p with panicked := true }
  else { p with mgr := { p.mgr with closed := conn :: p.mgr.closed } }

/-- The statement `manager.clients[conn] = true`. -/
def Proc.insert (p : Proc) (conn : ClientRead) : Proc :=
  if p.panicked then p
  else if conn ∈ p.mgr.clients then p
  else { p with mgr := { p.mgr with clients := p.mgr.clients ++ [conn] } }

/-- The statement `delete(manager.clients, conn)`. -/
def Proc.delete (p : Proc) (conn : ClientRead) : Proc :=
  if p.panicked then p
  else { p with mgr := { p.mgr with clients := p.mgr.clients.filter (fun c => c ≠ conn) } }

/-- The method `ClientManager.send`: the message to every member but `ignore`. -/
def ClientManager.send (p : Proc) (message : String) (ignore : ClientRead) : Proc :=
  p.mgr.clients.foldl (fun q conn => if conn ≠ ignore then q.send conn message else q) p

/-- The `register` case of `ClientManager.start`. -/
def handleRegister (conn : ClientRead) (m : ClientManager) : Proc :=
  let welcome : Welcome := ⟨"welcome", conn.id⟩
  let jsonMessage := marshalWelcome welcome
  let p := Proc.insert ⟨m, [], false⟩ conn
  let content : LocationInfo :=
    ⟨"update", conn.id, "0.036", "3.063", "0", "0", conn.id, "-1", ""⟩
  let jsonInfo := marshalLocationInfo content
  (p.send conn jsonMessage).send conn jsonInfo

/-- The `unregister` case of `ClientManager.start`. -/
def handleUnregister (conn : ClientRead) (m : ClientManager) : Proc :=
  if conn ∈ m.clients then
    let p := (Proc.close ⟨m, [], false⟩ conn).delete conn
    let offline : SendOffline := ⟨"closed", conn.id⟩
    let marshal := marshalSendOffline offline
    ClientManager.send p marshal conn
  else ⟨m, [], false⟩

/-- The `MessageType` branch: the chat payload is decoded a second time, the
error of that decode is dropped, and one frame goes to every member. -/
def broadcastMessage (receiveMessage : ReceiveMessage) (m : ClientManager) : Proc :=
  let chatInfo := (unmarshalSendChatInfo receiveMessage.Content {}).1
  let chatInfo := { chatInfo with Id := receiveMessage.Sender }
  let jsonInfo := marshalSendChatInfo chatInfo
  m.clients.foldl (fun q conn => q.send conn jsonInfo) ⟨m, [], false⟩

/-- The `UpdateType` branch: the location payload is serialized before the
loop; the loop assigns `content.Id` and sends the bytes serialized before. -/
def broadcastUpdate (receiveMessage : ReceiveMessage) (contentTeml : LocationInfo)
    (m : ClientManager) : Proc :=
  let content : LocationInfo :=
    ⟨"update", receiveMessage.Sender, contentTeml.Momentum, contentTeml.Angle,
      contentTeml.X, contentTeml.Y, contentTeml.Name, contentTeml.Sex, contentTeml.Icon⟩
  let jsonLocation := marshalLocationInfo content
  (m.clients.foldl
    (fun (st : LocationInfo × Proc) conn =>
      ({ st.1 with Id := conn.id }, st.2.send conn jsonLocation))
    (content, ⟨m, [], false⟩)).2

/-- The `broadcast` case of `ClientManager.start`. -/
def handleBroadcast (message : String) (m : ClientManager) : Proc :=
  match unmarshalReceiveMessage message {} with
  | (_, some _) => ⟨m, [], false⟩
  | (receiveMessage, none) =>
    match unmarshalLocationInfo receiveMessage.Content {} with
    | (_, some _) => ⟨m, [], false⟩
    | (contentTeml, none) =>
      let contentType := contentTeml.Type_
      if contentType = LoginType then ⟨m, [], false⟩
      else if contentType = MessageType then broadcastMessage receiveMessage m
      else if contentType = UpdateType then broadcastUpdate receiveMessage contentTeml m
      else ⟨m, [], false⟩

/-- One turn of the `select` in `ClientManager.start`. -/
def handle (ev : Event) (m : ClientManager) : Proc :=
  match ev with
  | .register conn => handleRegister conn m
  | .unregister conn => handleUnregister conn m
  | .broadcast message => handleBroadcast message m

/-- The method `ClientManager.start` over the events that arrive, one at a
time; the sends of all turns accumulate, and a panic ends the loop. -/
def start : List Event → Proc → Proc
  | [], p => p
  | ev :: evs, p =>
    if p.panicked then p
    else
      let q := handle ev p.mgr
      start evs ⟨q.mgr, p.sent ++ q.sent, q.panicked⟩

/-- The process as `main` starts it: the `manager` variable with its empty map. -/
def boot : Proc := ⟨{}, [], false⟩

/-- The frames a session has been sent, in order. -/
def received (sent : List Delivery) (conn : ClientRead) : List String :=
  (sent.filter (fun d => d.conn = conn)).map (fun d => d.frame)

/-! ## The loops of one session -/

/-- What `c.socket.ReadMessage()` returns. -/
inductive ReadResult where
  | frame (message : String) : ReadResult
  | err : ReadResult
deriving DecidableEq, Repr

/-- What a session goroutine does that others can see. -/
inductive Action where
  | signal (ev : Event) : Action
  | socketClose : Action
  | writeText (message : String) : Action
  | writeClose : Action
deriving DecidableEq, Repr

/-- The `for` loop of `ClientRead.read`: its actions, and whether it reached
`break` (it is still blocked in `ReadMessage` otherwise). -/
def readLoop (c : ClientRead) : List ReadResult → List Action × Bool
  | [] => ([], false)
  | .err :: _ => ([.signal (.unregister c), .socketClose], true)
  | .frame message :: rest =>
    let jsonMessage := marshalMessage { Sender := c.id, Content := message }
    (.signal (.broadcast jsonMessage) :: (readLoop c rest).1, (readLoop c rest).2)

/-- The method `ClientRead.read`: the loop, and the deferred function once the
loop is left; the flag tells whether the goroutine has returned. -/
def ClientRead.read (c : ClientRead) (input : List ReadResult) : List Action × Bool :=
  let r := readLoop c input
  if r.2 then (r.1 ++ [.signal (.unregister c), .socketClose], true) else (r.1, false)

/-- The method `ClientRead.write` over what it receives from `c.send`
(`none`: the channel is closed); the flag tells whether it has returned. -/
def ClientRead.write : List (Option String) → List Action × Bool
  | [] => ([], false)
  | none :: _ => ([.writeClose, .socketClose], true)
  | some message :: rest =>
    (.writeText message :: (ClientRead.write rest).1, (ClientRead.write rest).2)

/-! ## States of the control loop, and the sample inputs of the checks below -/

/-- A registry state: what the manager can be after `start` has handled some
events from `boot` without a panic. -/
def Reachable (m : ClientManager) : Prop :=
  ∃ evs : List Event, (start evs boot).panicked = false ∧ (start evs boot).mgr = m

/-- The keys of the map are distinct and every member's channel is open. -/
def WellFormed (m : ClientManager) : Prop :=
  m.clients.Nodup ∧ ∀ c ∈ m.clients, c ∉ m.closed

/-- Session A of the sample runs. -/
def clientA : ClientRead := ⟨1, "A"⟩

/-- Session B of the sample runs. -/
def clientB : ClientRead := ⟨2, "B"⟩

/-- Session C of the sample runs. -/
def clientC : ClientRead := ⟨3, "C"⟩

/-- The registry after A, B and C registered in that order. -/
def hubABC : ClientManager := ⟨[clientA, clientB, clientC], []⟩

/-- The registry after A registered and then unregistered. -/
def hubAfterA : ClientManager := ⟨[], [clientA]⟩

/-- The envelope A's read loop builds around a chat frame that carries a
foreign id. -/
def chatEnvelope : String :=
  marshalMessage
    { Sender := "A", Content := "\x7b\"type\":\"message\",\"id\":\"zz\",\"message\":\"hello\"\x7d" }

/-- The envelope A's read loop builds around the position report of the spec's
example scenario. -/
def updateEnvelope : String :=
  marshalMessage
    { Sender := "A", Content := "\x7b\"type\":\"update\",\"x\":\"10\",\"y\":\"20\"\x7d" }

/-- The envelope A's read loop builds around a frame whose `type` is `message`
and whose `message` is a number: a valid location payload, not a chat payload. -/
def badChatEnvelope : String :=
  marshalMessage { Sender := "A", Content := "\x7b\"type\":\"message\",\"message\":5\x7d" }

/-- The envelope A's read loop builds around a frame that is not JSON. -/
def badContentEnvelope : String :=
  marshalMessage { Sender := "A", Content := "hello" }


/-- The envelope an action hands to the manager's `broadcast` channel, if it
is such an action. -/
def broadcastOf : Action → Option String
  | .signal (.broadcast jsonMessage) => some jsonMessage
  | _ => none

/-- The sessions the events of a run register, in order. -/
def registrations : List Event → List ClientRead
  | [] => []
  | .register conn :: evs => conn :: registrations evs
  | _ :: evs => registrations evs

/-- The envelope A's read loop builds around a login frame with other fields. -/
def loginEnvelope : String :=
  marshalMessage
    { Sender := "A",
      Content := "\x7b\"type\":\"login\",\"name\":\"ann\",\"token\":[1,2]\x7d" }

/-- The envelope A's read loop builds around a frame of an unknown type. -/
def pingEnvelope : String :=
  marshalMessage { Sender := "A", Content := "\x7b\"type\":\"ping\",\"x\":\"1\"\x7d" }

/-- The envelope A's read loop builds around a frame without a type. -/
def untypedEnvelope : String :=
  marshalMessage { Sender := "A", Content := "\x7b\"x\":\"1\"\x7d" }

/-! ## Sends and fan-out loops -/

theorem send_mgr (p : Proc) (c : ClientRead) (msg : String) : (p.send c msg).mgr = p.mgr := by
  unfold Proc.send; split_ifs <;> rfl

theorem send_open (p : Proc) (c : ClientRead) (msg : String) (hp : p.panicked = false)
    (hc : c ∉ p.mgr.closed) : p.send c msg = { p with sent := p.sent ++ [⟨c, msg⟩] } := by
  simp [Proc.send, hp, hc]

theorem send_sent_mem (p : Proc) (c : ClientRead) (msg : String) (d : Delivery)
    (hd : d ∈ (p.send c msg).sent) : d ∈ p.sent ∨ d = ⟨c, msg⟩ := by
  unfold Proc.send at hd
  split_ifs at hd
  · exact Or.inl hd
  · exact Or.inl hd
  · simpa using hd

theorem fanout_open (msg : String) (l : List ClientRead) (p : Proc) (hp : p.panicked = false)
    (hl : ∀ c ∈ l, c ∉ p.mgr.closed) :
    l.foldl (fun q conn => q.send conn msg) p
      = { p with sent := p.sent ++ l.map (fun c => ⟨c, msg⟩) } := by
  induction l generalizing p with
  | nil => simp
  | cons c l ih =>
    have hc : c ∉ p.mgr.closed := hl c (List.mem_cons_self _ _)
    have hrest : ∀ x ∈ l, x ∉ p.mgr.closed := fun x hx => hl x (List.mem_cons_of_mem _ hx)
    rw [List.foldl_cons, send_open p c msg hp hc,
      ih ⟨p.mgr, p.sent ++ [Delivery.mk c msg], p.panicked⟩ hp hrest]
    simp

theorem fanout_mgr (msg : String) : ∀ (l : List ClientRead) (p : Proc),
    (l.foldl (fun q conn => q.send conn msg) p).mgr = p.mgr
  | [], _ => rfl
  | c :: l, p => by rw [List.foldl_cons, fanout_mgr msg l, send_mgr]

theorem fanout_sent_mem (msg : String) (d : Delivery) : ∀ (l : List ClientRead) (p : Proc),
    d ∈ (l.foldl (fun q conn => q.send conn msg) p).sent →
    d ∈ p.sent ∨ (d.conn ∈ l ∧ d.frame = msg)
  | [], _, h => Or.inl h
  | c :: l, p, h => by
    rw [List.foldl_cons] at h
    rcases fanout_sent_mem msg d l _ h with h1 | ⟨h1, h2⟩
    · rcases send_sent_mem p c msg d h1 with h3 | h3
      · exact Or.inl h3
      · subst h3; exact Or.inr ⟨List.mem_cons_self _ _, rfl⟩
    · exact Or.inr ⟨List.mem_cons_of_mem _ h1, h2⟩

theorem managerSend_eq (p : Proc) (msg : String) (ignore : ClientRead) :
    ClientManager.send p msg ignore
      = (p.mgr.clients.filter (fun c => c ≠ ignore)).foldl (fun q conn => q.send conn msg) p := by
  unfold ClientManager.send
  generalize p.mgr.clients = l
  induction l generalizing p with
  | nil => rfl
  | cons c l ih =>
    rw [List.foldl_cons, List.filter_cons]
    by_cases h : c = ignore
    · rw [if_neg (by simpa using h), if_neg (by simpa using h)]; exact ih p
    · rw [if_pos (by simpa using h), if_pos (by simpa using h), List.foldl_cons]; exact ih _

theorem updateLoop_eq (msg : String) : ∀ (l : List ClientRead) (content : LocationInfo) (p : Proc),
    (l.foldl (fun (st : LocationInfo × Proc) conn =>
        ({ st.1 with Id := conn.id }, st.2.send conn msg)) (content, p)).2
      = l.foldl (fun q conn => q.send conn msg) p
  | [], _, _ => rfl
  | c :: l, content, p => by
    rw [List.foldl_cons, List.foldl_cons, updateLoop_eq msg l]


/-! ## The three handlers on a well-formed manager -/

theorem handleRegister_open (conn : ClientRead) (m : ClientManager) (h : conn ∉ m.closed) :
    handleRegister conn m
      = ⟨{ m with clients := if conn ∈ m.clients then m.clients else m.clients ++ [conn] },
          [⟨conn, marshalWelcome ⟨"welcome", conn.id⟩⟩,
           ⟨conn, marshalLocationInfo
              ⟨"update", conn.id, "0.036", "3.063", "0", "0", conn.id, "-1", ""⟩⟩],
          false⟩ := by
  by_cases hc : conn ∈ m.clients <;> simp [handleRegister, Proc.insert, Proc.send, hc, h]

theorem handleRegister_closed (conn : ClientRead) (m : ClientManager) (h : conn ∈ m.closed) :
    (handleRegister conn m).panicked = true ∧ (handleRegister conn m).sent = [] := by
  by_cases hc : conn ∈ m.clients <;> simp [handleRegister, Proc.insert, Proc.send, hc, h]

theorem handleUnregister_member (conn : ClientRead) (m : ClientManager) (hwf : WellFormed m)
    (hc : conn ∈ m.clients) :
    handleUnregister conn m
      = ⟨⟨m.clients.filter (fun c => c ≠ conn), conn :: m.closed⟩,
          (m.clients.filter (fun c => c ≠ conn)).map
            (fun c => ⟨c, marshalSendOffline ⟨"closed", conn.id⟩⟩),
          false⟩ := by
  have hopen : conn ∉ m.closed := hwf.2 conn hc
  have hrest : ∀ c ∈ m.clients.filter (fun c => c ≠ conn), c ∉ conn :: m.closed := by
    intro c hcm
    rw [List.mem_filter] at hcm
    have hne : c ≠ conn := by simpa using hcm.2
    simp only [List.mem_cons, not_or]
    exact ⟨hne, hwf.2 c hcm.1⟩
  unfold handleUnregister
  rw [if_pos hc]
  simp only [managerSend_eq]
  have hp : (Proc.close ⟨m, [], false⟩ conn).delete conn
      = ⟨⟨m.clients.filter (fun c => c ≠ conn), conn :: m.closed⟩, [], false⟩ := by
    simp [Proc.close, Proc.delete, hopen]
  rw [hp]
  dsimp only
  rw [List.filter_filter]
  simp only [Bool.and_self]
  rw [fanout_open _ _ _ rfl hrest]
  simp

theorem handleUnregister_absent (conn : ClientRead) (m : ClientManager) (hc : conn ∉ m.clients) :
    handleUnregister conn m = ⟨m, [], false⟩ := by
  unfold handleUnregister
  rw [if_neg hc]

theorem broadcastMessage_wf (rm : ReceiveMessage) (m : ClientManager) (hwf : WellFormed m) :
    broadcastMessage rm m
      = ⟨m, m.clients.map (fun c => ⟨c, marshalSendChatInfo
            { (unmarshalSendChatInfo rm.Content {}).1 with Id := rm.Sender }⟩), false⟩ := by
  unfold broadcastMessage
  rw [fanout_open _ _ _ rfl hwf.2]
  simp

theorem broadcastUpdate_wf (rm : ReceiveMessage) (loc : LocationInfo) (m : ClientManager)
    (hwf : WellFormed m) :
    broadcastUpdate rm loc m
      = ⟨m, m.clients.map (fun c => ⟨c, marshalLocationInfo
            ⟨"update", rm.Sender, loc.Momentum, loc.Angle, loc.X, loc.Y, loc.Name, loc.Sex,
              loc.Icon⟩⟩), false⟩ := by
  unfold broadcastUpdate
  rw [updateLoop_eq, fanout_open _ _ _ rfl hwf.2]
  simp

theorem handleBroadcast_mgr (message : String) (m : ClientManager) :
    (handleBroadcast message m).mgr = m := by
  unfold handleBroadcast
  split
  · rfl
  · split
    · rfl
    · simp only
      split_ifs
      · rfl
      · exact fanout_mgr _ _ _
      · unfold broadcastUpdate; rw [updateLoop_eq]; exact fanout_mgr _ _ _
      · rfl

theorem handleBroadcast_panicked (message : String) (m : ClientManager) (hwf : WellFormed m) :
    (handleBroadcast message m).panicked = false := by
  unfold handleBroadcast
  split
  · rfl
  · split
    · rfl
    · simp only
      split_ifs
      · rfl
      · rw [broadcastMessage_wf _ _ hwf]
      · rw [broadcastUpdate_wf _ _ _ hwf]
      · rfl

/-! ## Every reachable manager is well formed -/

theorem handle_wf (ev : Event) (m : ClientManager) (hwf : WellFormed m)
    (hlive : (handle ev m).panicked = false) : WellFormed (handle ev m).mgr := by
  cases ev with
  | register conn =>
    by_cases hcl : conn ∈ m.closed
    · have := (handleRegister_closed conn m hcl).1
      simp [handle, this] at hlive
    · simp only [handle, handleRegister_open conn m hcl]
      by_cases hc : conn ∈ m.clients
      · simpa [hc] using hwf
      · simp only [hc, if_false]
        refine ⟨?_, ?_⟩
        · exact List.Nodup.append hwf.1 (List.nodup_singleton _) (by simpa using hc)
        · intro c hcm
          rcases List.mem_append.1 hcm with h | h
          · exact hwf.2 c h
          · simp at h; subst h; exact hcl
  | unregister conn =>
    by_cases hc : conn ∈ m.clients
    · simp only [handle, handleUnregister_member conn m hwf hc]
      refine ⟨hwf.1.filter _, ?_⟩
      intro c hcm
      rw [List.mem_filter] at hcm
      have hne : c ≠ conn := by simpa using hcm.2
      simp only [List.mem_cons, not_or]
      exact ⟨hne, hwf.2 c hcm.1⟩
    · simpa [handle, handleUnregister_absent conn m hc] using hwf
  | broadcast message =>
    simpa [handle, handleBroadcast_mgr] using hwf

theorem start_panicked (evs : List Event) (p : Proc) (hp : p.panicked = true) :
    start evs p = p := by
  cases evs with
  | nil => rfl
  | cons ev evs => simp [start, hp]

theorem start_cons (ev : Event) (evs : List Event) (p : Proc) (hp : p.panicked = false) :
    start (ev :: evs) p
      = start evs ⟨(handle ev p.mgr).mgr, p.sent ++ (handle ev p.mgr).sent,
          (handle ev p.mgr).panicked⟩ := by
  simp [start, hp]

theorem start_wf (evs : List Event) (p : Proc) (hwf : WellFormed p.mgr)
    (hlive : (start evs p).panicked = false) : WellFormed (start evs p).mgr := by
  induction evs generalizing p with
  | nil => exact hwf
  | cons ev evs ih =>
    by_cases hp : p.panicked = true
    · rw [start_panicked _ _ hp] at hlive; simp [hp] at hlive
    · have hp0 : p.panicked = false := by simpa using hp
      rw [start_cons ev evs p hp0] at hlive ⊢
      by_cases hq : (handle ev p.mgr).panicked = true
      · have hstop := start_panicked evs
          ⟨(handle ev p.mgr).mgr, p.sent ++ (handle ev p.mgr).sent, (handle ev p.mgr).panicked⟩ hq
        rw [hstop] at hlive
        simp [hq] at hlive
      · have hq0 : (handle ev p.mgr).panicked = false := by simpa using hq
        exact ih _ (handle_wf ev p.mgr hwf hq0) hlive

theorem reachable_wf (m : ClientManager) (h : Reachable m) : WellFormed m := by
  obtain ⟨evs, hlive, rfl⟩ := h
  exact start_wf evs boot ⟨List.nodup_nil, by simp [boot]⟩ hlive


/-! ## The two decodes of one content agree on `type` -/

theorem findField_fold (names : List String) (k f : String) (h : findField names k = some f) :
    foldName f = foldName k ∧ f ∈ names := by
  unfold findField at h
  split at h
  · rename_i n hn
    have hnf : n = f := by simpa using h
    subst hnf
    have hk := List.find?_some hn
    have hmem := List.mem_of_find?_eq_some hn
    simp at hk
    subst hk
    exact ⟨rfl, hmem⟩
  · have hk := List.find?_some h
    have hmem := List.mem_of_find?_eq_some h
    simp at hk
    exact ⟨hk, hmem⟩

theorem findField_of_fold (names : List String) (k f : String) (hf : f ∈ names)
    (hk : foldName f = foldName k)
    (hinj : ∀ n ∈ names, foldName n = foldName f → n = f) : findField names k = some f := by
  cases h : findField names k with
  | some n =>
    obtain ⟨h1, h2⟩ := findField_fold names k n h
    rw [hinj n h2 (h1.trans hk.symm)]
  | none =>
    exfalso
    unfold findField at h
    split at h
    · simp at h
    · rw [List.find?_eq_none] at h
      exact h f hf (by simpa using hk)

theorem locationInfo_setField_type (t : LocationInfo) (f s : String) :
    (LocationInfo.setField t f s).Type_ = if f = "type" then s else t.Type_ := by
  unfold LocationInfo.setField
  split_ifs <;> rfl

theorem sendChatInfo_setField_type (t : SendChatInfo) (f s : String) :
    (SendChatInfo.setField t f s).Type_ = if f = "type" then s else t.Type_ := by
  unfold SendChatInfo.setField
  split_ifs <;> rfl

theorem locationInfo_type_inj :
    ∀ n ∈ LocationInfo.tags, foldName n = foldName "type" → n = "type" := by
  decide

theorem sendChatInfo_type_inj :
    ∀ n ∈ SendChatInfo.tags, foldName n = foldName "type" → n = "type" := by
  decide


theorem locationInfo_member_keeps_type (k : String) (v : JVal)
    (a : LocationInfo × Option JsonError)
    (hk : ∀ f, findField LocationInfo.tags k = some f → f ≠ "type") :
    (decodeMember LocationInfo.tags LocationInfo.setField a (k, v)).1.Type_ = a.1.Type_ := by
  unfold decodeMember
  cases hfind : findField LocationInfo.tags k with
  | none => rfl
  | some f => cases v <;> simp [locationInfo_setField_type, hk f hfind]

theorem sendChatInfo_member_keeps_type (k : String) (v : JVal)
    (a : SendChatInfo × Option JsonError)
    (hk : ∀ f, findField SendChatInfo.tags k = some f → f ≠ "type") :
    (decodeMember SendChatInfo.tags SendChatInfo.setField a (k, v)).1.Type_ = a.1.Type_ := by
  unfold decodeMember
  cases hfind : findField SendChatInfo.tags k with
  | none => rfl
  | some f => cases v <;> simp [sendChatInfo_setField_type, hk f hfind]

theorem decodeMember_type (member : String × JVal) (a1 : LocationInfo × Option JsonError)
    (a2 : SendChatInfo × Option JsonError) (h : a1.1.Type_ = a2.1.Type_) :
    (decodeMember LocationInfo.tags LocationInfo.setField a1 member).1.Type_
      = (decodeMember SendChatInfo.tags SendChatInfo.setField a2 member).1.Type_ := by
  obtain ⟨k, v⟩ := member
  by_cases hk : foldName "type" = foldName k
  · have e1 := findField_of_fold LocationInfo.tags k "type" (by decide) hk locationInfo_type_inj
    have e2 := findField_of_fold SendChatInfo.tags k "type" (by decide) hk sendChatInfo_type_inj
    unfold decodeMember
    rw [e1, e2]
    cases v <;> simp [locationInfo_setField_type, sendChatInfo_setField_type, h]
  · have n1 : ∀ f, findField LocationInfo.tags k = some f → f ≠ "type" := by
      intro f hf hft
      subst hft
      exact hk (findField_fold _ _ _ hf).1
    have n2 : ∀ f, findField SendChatInfo.tags k = some f → f ≠ "type" := by
      intro f hf hft
      subst hft
      exact hk (findField_fold _ _ _ hf).1
    rw [locationInfo_member_keeps_type k v a1 n1, sendChatInfo_member_keeps_type k v a2 n2, h]

theorem decodeMembers_type (members : List (String × JVal))
    (a1 : LocationInfo × Option JsonError) (a2 : SendChatInfo × Option JsonError)
    (h : a1.1.Type_ = a2.1.Type_) :
    (decodeMembers LocationInfo.tags LocationInfo.setField members a1).1.Type_
      = (decodeMembers SendChatInfo.tags SendChatInfo.setField members a2).1.Type_ := by
  unfold decodeMembers
  induction members generalizing a1 a2 with
  | nil => exact h
  | cons member rest ih =>
    rw [List.foldl_cons, List.foldl_cons]
    exact ih _ _ (decodeMember_type member a1 a2 h)

theorem unmarshal_type_agree (content : String) :
    (unmarshalSendChatInfo content {}).1.Type_ = (unmarshalLocationInfo content {}).1.Type_ := by
  unfold unmarshalSendChatInfo unmarshalLocationInfo unmarshalStruct
  cases parseJson content with
  | none => rfl
  | some v =>
    cases v with
    | obj members => exact (decodeMembers_type members _ _ rfl).symm
    | _ => rfl


/-! ## What one session receives from a fan-out -/

theorem received_fanout_absent (l : List ClientRead) (frame : String) (c : ClientRead)
    (hc : c ∉ l) : received (l.map (fun x => ⟨x, frame⟩)) c = [] := by
  induction l with
  | nil => rfl
  | cons x l ih =>
    have hx : x ≠ c := fun h => hc (h ▸ List.mem_cons_self _ _)
    have hl : c ∉ l := fun h => hc (List.mem_cons_of_mem _ h)
    have := ih hl
    unfold received at this ⊢
    simp [List.filter_cons, hx, this]

theorem received_fanout_member (l : List ClientRead) (frame : String) (c : ClientRead)
    (hnd : l.Nodup) (hc : c ∈ l) : received (l.map (fun x => ⟨x, frame⟩)) c = [frame] := by
  induction l with
  | nil => simp at hc
  | cons x l ih =>
    rw [List.nodup_cons] at hnd
    by_cases hx : x = c
    · subst hx
      have := received_fanout_absent l frame x hnd.1
      unfold received at this ⊢
      simp [List.filter_cons, this]
    · have hl : c ∈ l := by
        rcases List.mem_cons.1 hc with h | h
        · exact absurd h.symm hx
        · exact h
      have := ih hnd.2 hl
      unfold received at this ⊢
      simp [List.filter_cons, hx, this]


/-! ## Chat broadcast -/

/-- C2: in every registry state, a broadcast whose envelope and inner payload
decode and whose type is `message` sends one and the same chat frame once to
each member, the sender included, and nothing else: one delivery per member.
The frame is the chat payload with type `message`, the id of the envelope's
sender, whatever id the payload carried, and the payload's message. -/
theorem broadcast_message_reaches_every_member (m : ClientManager) (hm : Reachable m)
    (message : String) (rm : ReceiveMessage) (loc : LocationInfo)
    (henv : unmarshalReceiveMessage message {} = (rm, none))
    (hloc : unmarshalLocationInfo rm.Content {} = (loc, none))
    (htype : loc.Type_ = MessageType) :
    (handle (.broadcast message) m).sent
        = m.clients.map (fun c => ⟨c, marshalSendChatInfo
            ⟨"message", rm.Sender, (unmarshalSendChatInfo rm.Content {}).1.Message⟩⟩)
      ∧ (handle (.broadcast message) m).sent.length = m.clients.length
      ∧ (∀ c ∈ m.clients, received (handle (.broadcast message) m).sent c
          = [marshalSendChatInfo
              ⟨"message", rm.Sender, (unmarshalSendChatInfo rm.Content {}).1.Message⟩])
      ∧ (∀ c, c ∉ m.clients → received (handle (.broadcast message) m).sent c = [])
      ∧ (handle (.broadcast message) m).mgr = m
      ∧ (handle (.broadcast message) m).panicked = false := by
  have hwf := reachable_wf m hm
  have htag : (unmarshalSendChatInfo rm.Content {}).1.Type_ = "message" := by
    rw [unmarshal_type_agree, hloc]; exact htype
  have hchat : ({ (unmarshalSendChatInfo rm.Content {}).1 with Id := rm.Sender } : SendChatInfo)
      = ⟨"message", rm.Sender, (unmarshalSendChatInfo rm.Content {}).1.Message⟩ := by
    rw [← htag]
  have hne : ¬ MessageType = LoginType := by decide
  have hrun : handle (.broadcast message) m
      = ⟨m, m.clients.map (fun c => ⟨c, marshalSendChatInfo
          ⟨"message", rm.Sender, (unmarshalSendChatInfo rm.Content {}).1.Message⟩⟩), false⟩ := by
    simp only [handle, handleBroadcast, henv, hloc, htype, hne, if_false, if_true]
    rw [broadcastMessage_wf rm m hwf, hchat]
  rw [hrun]
  refine ⟨rfl, by simp, ?_, ?_, rfl, rfl⟩
  · intro c hc
    exact received_fanout_member _ _ c hwf.1 hc
  · intro c hc
    exact received_fanout_absent _ _ c hc

theorem broadcast_message_reaches_every_member_witness :
    Reachable hubABC
      ∧ unmarshalReceiveMessage chatEnvelope {}
          = (⟨"A", "\x7b\"type\":\"message\",\"id\":\"zz\",\"message\":\"hello\"\x7d"⟩, none)
      ∧ (handle (.broadcast chatEnvelope) hubABC).sent
          = [⟨clientA, "\x7b\"type\":\"message\",\"id\":\"A\",\"message\":\"hello\"\x7d"⟩,
             ⟨clientB, "\x7b\"type\":\"message\",\"id\":\"A\",\"message\":\"hello\"\x7d"⟩,
             ⟨clientC, "\x7b\"type\":\"message\",\"id\":\"A\",\"message\":\"hello\"\x7d"⟩] :=
  ⟨⟨[.register clientA, .register clientB, .register clientC], by decide, by decide⟩,
   by decide,
   (broadcast_message_reaches_every_member hubABC
      ⟨[.register clientA, .register clientB, .register clientC], by decide, by decide⟩
      chatEnvelope ⟨"A", "\x7b\"type\":\"message\",\"id\":\"zz\",\"message\":\"hello\"\x7d"⟩
      ⟨"message", "zz", "", "", "", "", "", "", ""⟩ (by decide) (by decide) (by decide)).1.trans
     (by decide)⟩


/-! ## Position broadcast -/

/-- C3 fails: with A, B and C registered and A reporting a position, the copy B
receives is labelled with the sender's id `A`, not with B's own id: it is the
frame serialized before the loop, and decoding it gives the id `A`. -/
theorem update_copy_keeps_sender_id :
    (start [.register clientA, .register clientB, .register clientC] boot).panicked = false
      ∧ (start [.register clientA, .register clientB, .register clientC] boot).mgr = hubABC
      ∧ received (handle (.broadcast updateEnvelope) hubABC).sent clientB
        = ["\x7b\"type\":\"update\",\"id\":\"A\",\"momentum\":\"\",\"angle\":\"\",\"x\":\"10\",\"y\":\"20\",\"name\":\"\",\"sex\":\"\",\"icon\":\"\"\x7d"]
      ∧ (unmarshalLocationInfo
          "\x7b\"type\":\"update\",\"id\":\"A\",\"momentum\":\"\",\"angle\":\"\",\"x\":\"10\",\"y\":\"20\",\"name\":\"\",\"sex\":\"\",\"icon\":\"\"\x7d"
          {}).1.Id = "A"
      ∧ clientB.id = "B" := by
  decide

/-- C3, amended: for every manager state and every update broadcast, each copy
the loop delivers is the location frame whose id is the envelope's sender; the
assignment of the receiving member's id inside the loop reaches no copy. -/
theorem update_copy_carries_sender_id (m : ClientManager) (message : String)
    (rm : ReceiveMessage) (loc : LocationInfo)
    (henv : unmarshalReceiveMessage message {} = (rm, none))
    (hloc : unmarshalLocationInfo rm.Content {} = (loc, none))
    (htype : loc.Type_ = UpdateType) :
    ∀ d ∈ (handle (.broadcast message) m).sent,
      d.conn ∈ m.clients
        ∧ d.frame = marshalLocationInfo
            { Type_ := "update", Id := rm.Sender, Momentum := loc.Momentum, Angle := loc.Angle,
              X := loc.X, Y := loc.Y, Name := loc.Name, Sex := loc.Sex, Icon := loc.Icon } := by
  intro d hd
  have hne1 : ¬ UpdateType = LoginType := by decide
  have hne2 : ¬ UpdateType = MessageType := by decide
  simp only [handle, handleBroadcast, henv, hloc, htype, hne1, hne2, if_false, if_true] at hd
  unfold broadcastUpdate at hd
  rw [updateLoop_eq] at hd
  rcases fanout_sent_mem _ d _ _ hd with h | h
  · simp at h
  · exact h

theorem update_copy_carries_sender_id_witness :
    unmarshalReceiveMessage updateEnvelope {}
        = (⟨"A", "\x7b\"type\":\"update\",\"x\":\"10\",\"y\":\"20\"\x7d"⟩, none)
      ∧ (⟨clientC, "\x7b\"type\":\"update\",\"id\":\"A\",\"momentum\":\"\",\"angle\":\"\",\"x\":\"10\",\"y\":\"20\",\"name\":\"\",\"sex\":\"\",\"icon\":\"\"\x7d"⟩ : Delivery)
          ∈ (handle (.broadcast updateEnvelope) ⟨[clientB, clientC], []⟩).sent
      ∧ marshalLocationInfo ⟨"update", "A", "", "", "10", "20", "", "", ""⟩
          = "\x7b\"type\":\"update\",\"id\":\"A\",\"momentum\":\"\",\"angle\":\"\",\"x\":\"10\",\"y\":\"20\",\"name\":\"\",\"sex\":\"\",\"icon\":\"\"\x7d" :=
  ⟨by decide, by decide,
   ((update_copy_carries_sender_id ⟨[clientB, clientC], []⟩ updateEnvelope
      ⟨"A", "\x7b\"type\":\"update\",\"x\":\"10\",\"y\":\"20\"\x7d"⟩
      ⟨"update", "", "", "", "10", "20", "", "", ""⟩ (by decide) (by decide) (by decide)
      ⟨clientC, "\x7b\"type\":\"update\",\"id\":\"A\",\"momentum\":\"\",\"angle\":\"\",\"x\":\"10\",\"y\":\"20\",\"name\":\"\",\"sex\":\"\",\"icon\":\"\"\x7d"⟩
      (by decide)).2).symm⟩

/-- C4: in every registry state, a broadcast whose envelope and inner payload
decode and whose type is `update` sends exactly one frame to each member, the
sender not skipped, and nothing else: one delivery per member.  Every frame has
type `update` and the momentum, angle, x, y, name, sex and icon of the decoded
payload. -/
theorem broadcast_update_reaches_every_member (m : ClientManager) (hm : Reachable m)
    (message : String) (rm : ReceiveMessage) (loc : LocationInfo)
    (henv : unmarshalReceiveMessage message {} = (rm, none))
    (hloc : unmarshalLocationInfo rm.Content {} = (loc, none))
    (htype : loc.Type_ = UpdateType) :
    (handle (.broadcast message) m).sent.length = m.clients.length
      ∧ (∀ c ∈ m.clients, ∃ id : String,
          received (handle (.broadcast message) m).sent c
            = [marshalLocationInfo
                { Type_ := "update", Id := id, Momentum := loc.Momentum, Angle := loc.Angle,
                  X := loc.X, Y := loc.Y, Name := loc.Name, Sex := loc.Sex, Icon := loc.Icon }])
      ∧ (∀ c, c ∉ m.clients → received (handle (.broadcast message) m).sent c = [])
      ∧ (handle (.broadcast message) m).mgr = m
      ∧ (handle (.broadcast message) m).panicked = false := by
  have hwf := reachable_wf m hm
  have hne1 : ¬ UpdateType = LoginType := by decide
  have hne2 : ¬ UpdateType = MessageType := by decide
  have hrun : handle (.broadcast message) m
      = ⟨m, m.clients.map (fun c => ⟨c, marshalLocationInfo
          ⟨"update", rm.Sender, loc.Momentum, loc.Angle, loc.X, loc.Y, loc.Name, loc.Sex,
            loc.Icon⟩⟩), false⟩ := by
    simp only [handle, handleBroadcast, henv, hloc, htype, hne1, hne2, if_false, if_true]
    rw [broadcastUpdate_wf rm loc m hwf]
  rw [hrun]
  refine ⟨by simp, ?_, ?_, rfl, rfl⟩
  · intro c hc
    exact ⟨rm.Sender, received_fanout_member _ _ c hwf.1 hc⟩
  · intro c hc
    exact received_fanout_absent _ _ c hc

theorem broadcast_update_reaches_every_member_witness :
    Reachable hubABC
      ∧ unmarshalLocationInfo "\x7b\"type\":\"update\",\"x\":\"10\",\"y\":\"20\"\x7d" {}
          = (⟨"update", "", "", "", "10", "20", "", "", ""⟩, none)
      ∧ (handle (.broadcast updateEnvelope) hubABC).sent.length = 3
      ∧ received (handle (.broadcast updateEnvelope) hubABC).sent clientA
          = ["\x7b\"type\":\"update\",\"id\":\"A\",\"momentum\":\"\",\"angle\":\"\",\"x\":\"10\",\"y\":\"20\",\"name\":\"\",\"sex\":\"\",\"icon\":\"\"\x7d"] :=
  ⟨⟨[.register clientA, .register clientB, .register clientC], by decide, by decide⟩,
   by decide,
   (broadcast_update_reaches_every_member hubABC
      ⟨[.register clientA, .register clientB, .register clientC], by decide, by decide⟩
      updateEnvelope ⟨"A", "\x7b\"type\":\"update\",\"x\":\"10\",\"y\":\"20\"\x7d"⟩
      ⟨"update", "", "", "", "10", "20", "", "", ""⟩ (by decide) (by decide) (by decide)).1,
   by decide⟩


/-! ## Unregistration -/

theorem length_filter_ne (l : List ClientRead) (s : ClientRead) (hnd : l.Nodup) (hs : s ∈ l) :
    (l.filter (fun c => c ≠ s)).length + 1 = l.length := by
  induction l with
  | nil => simp at hs
  | cons x l ih =>
    rw [List.nodup_cons] at hnd
    by_cases hx : x = s
    · subst hx
      have hall : l.filter (fun c => c ≠ x) = l := by
        rw [List.filter_eq_self]
        intro c hc
        have : c ≠ x := fun h => hnd.1 (h ▸ hc)
        simpa using this
      rw [List.filter_cons, if_neg (by simp), hall, List.length_cons]
    · have hl : s ∈ l := by
        rcases List.mem_cons.1 hs with h | h
        · exact absurd h.symm hx
        · exact h
      have := ih hnd.2 hl
      rw [List.filter_cons, if_pos (by simpa using hx), List.length_cons, List.length_cons, this]

/-- C5: in every registry state, `Unregister(s)` for a member `s` sends exactly
one `closed` frame with `s.id` to each other member and none to `s` (nor to
anyone else), removes `s` from the map, keeps every other member, and closes
the channel of `s`; nothing panics. -/
theorem unregister_member_notifies_others (m : ClientManager) (hm : Reachable m)
    (s : ClientRead) (hs : s ∈ m.clients) :
    (∀ c ∈ m.clients, c ≠ s →
        received (handle (.unregister s) m).sent c = [marshalSendOffline ⟨"closed", s.id⟩])
      ∧ received (handle (.unregister s) m).sent s = []
      ∧ (∀ c, c ∉ m.clients → received (handle (.unregister s) m).sent c = [])
      ∧ (handle (.unregister s) m).sent.length + 1 = m.clients.length
      ∧ s ∉ (handle (.unregister s) m).mgr.clients
      ∧ (∀ c, c ≠ s → (c ∈ (handle (.unregister s) m).mgr.clients ↔ c ∈ m.clients))
      ∧ s ∈ (handle (.unregister s) m).mgr.closed
      ∧ (handle (.unregister s) m).panicked = false := by
  have hwf := reachable_wf m hm
  simp only [handle, handleUnregister_member s m hwf hs]
  have hnd : (m.clients.filter (fun c => c ≠ s)).Nodup := hwf.1.filter _
  have hmem : ∀ c, c ∈ m.clients.filter (fun c => c ≠ s) ↔ c ∈ m.clients ∧ c ≠ s := by
    intro c
    simp [List.mem_filter]
  refine ⟨?_, ?_, ?_, ?_, ?_, ?_, by simp, trivial⟩
  · intro c hc hne
    exact received_fanout_member _ _ c hnd ((hmem c).2 ⟨hc, hne⟩)
  · exact received_fanout_absent _ _ s (fun h => ((hmem s).1 h).2 rfl)
  · intro c hc
    exact received_fanout_absent _ _ c (fun h => hc ((hmem c).1 h).1)
  · rw [List.length_map]
    exact length_filter_ne m.clients s hwf.1 hs
  · exact fun h => ((hmem s).1 h).2 rfl
  · intro c hne
    exact ⟨fun h => ((hmem c).1 h).1, fun h => (hmem c).2 ⟨h, hne⟩⟩

theorem unregister_member_notifies_others_witness :
    Reachable hubABC ∧ clientB ∈ hubABC.clients
      ∧ received (handle (.unregister clientB) hubABC).sent clientB = []
      ∧ (handle (.unregister clientB) hubABC).sent
          = [⟨clientA, "\x7b\"type\":\"closed\",\"id\":\"B\"\x7d"⟩,
             ⟨clientC, "\x7b\"type\":\"closed\",\"id\":\"B\"\x7d"⟩] :=
  ⟨⟨[.register clientA, .register clientB, .register clientC], by decide, by decide⟩,
   by decide,
   (unregister_member_notifies_others hubABC
      ⟨[.register clientA, .register clientB, .register clientC], by decide, by decide⟩
      clientB (by decide)).2.1,
   by decide⟩

/-- C6: in every manager state, `Unregister(s)` for a session that is not a
member changes nothing, sends nothing and does not panic; handling it twice in
a row leaves the loop exactly where handling it once does. -/
theorem unregister_absent_is_noop (m : ClientManager) (s : ClientRead) (hs : s ∉ m.clients) :
    handle (.unregister s) m = ⟨m, [], false⟩
      ∧ ∀ sent : List Delivery,
          start [.unregister s, .unregister s] ⟨m, sent, false⟩
            = start [.unregister s] ⟨m, sent, false⟩ := by
  have h1 : handle (.unregister s) m = ⟨m, [], false⟩ := by
    simp only [handle, handleUnregister_absent s m hs]
  refine ⟨h1, ?_⟩
  intro sent
  simp [start, h1]

theorem unregister_absent_is_noop_witness :
    clientA ∉ hubAfterA.clients
      ∧ handle (.unregister clientA) hubAfterA = ⟨hubAfterA, [], false⟩ :=
  ⟨by decide, (unregister_absent_is_noop hubAfterA clientA (by decide)).1⟩

/-! ## Malformed input -/

/-- C7: in every manager state, a broadcast whose outer envelope fails to decode
sends nothing and changes nothing, and the loop handles the events that follow
exactly as it would have without it. -/
theorem broadcast_bad_envelope_is_dropped (m : ClientManager) (message : String)
    (rm : ReceiveMessage) (e : JsonError)
    (henv : unmarshalReceiveMessage message {} = (rm, some e)) :
    handle (.broadcast message) m = ⟨m, [], false⟩
      ∧ ∀ (evs : List Event) (p : Proc),
          start (.broadcast message :: evs) p = start evs p := by
  have h1 : ∀ m' : ClientManager, handle (.broadcast message) m' = ⟨m', [], false⟩ := by
    intro m'
    simp only [handle, handleBroadcast, henv]
  refine ⟨h1 m, ?_⟩
  intro evs p
  by_cases hp : p.panicked = true
  · rw [start_panicked _ _ hp, start_panicked _ _ hp]
  · have hp0 : p.panicked = false := by simpa using hp
    rw [start_cons _ _ _ hp0, h1]
    simp [← hp0]

theorem broadcast_bad_envelope_is_dropped_witness :
    unmarshalReceiveMessage "\x7b\"sender\":\"A\",\"content\":" {} = ({}, some .syntaxError)
      ∧ handle (.broadcast "\x7b\"sender\":\"A\",\"content\":") hubABC = ⟨hubABC, [], false⟩
      ∧ start [.broadcast "\x7b\"sender\":\"A\",\"content\":", .broadcast chatEnvelope]
            ⟨hubABC, [], false⟩
          = start [.broadcast chatEnvelope] ⟨hubABC, [], false⟩ :=
  ⟨by decide,
   (broadcast_bad_envelope_is_dropped hubABC "\x7b\"sender\":\"A\",\"content\":" {}
      .syntaxError (by decide)).1,
   (broadcast_bad_envelope_is_dropped hubABC "\x7b\"sender\":\"A\",\"content\":" {}
      .syntaxError (by decide)).2 _ _⟩


/-- C8 fails: the content `{"type":"message","message":5}` in a well-formed
envelope decodes as a location payload of type `message` and does not decode as
a chat payload, yet with A, B and C registered the loop sends a chat frame to
all three: the error of the second decode is dropped. -/
theorem bad_chat_payload_is_broadcast :
    (start [.register clientA, .register clientB, .register clientC] boot).panicked = false
      ∧ (start [.register clientA, .register clientB, .register clientC] boot).mgr = hubABC
      ∧ unmarshalReceiveMessage badChatEnvelope {}
        = (⟨"A", "\x7b\"type\":\"message\",\"message\":5\x7d"⟩, none)
      ∧ unmarshalLocationInfo "\x7b\"type\":\"message\",\"message\":5\x7d" {}
        = (⟨"message", "", "", "", "", "", "", "", ""⟩, none)
      ∧ unmarshalSendChatInfo "\x7b\"type\":\"message\",\"message\":5\x7d" {}
        = (⟨"message", "", ""⟩, some .unmarshalTypeError)
      ∧ (handle (.broadcast badChatEnvelope) hubABC).sent
        = [⟨clientA, "\x7b\"type\":\"message\",\"id\":\"A\",\"message\":\"\"\x7d"⟩,
           ⟨clientB, "\x7b\"type\":\"message\",\"id\":\"A\",\"message\":\"\"\x7d"⟩,
           ⟨clientC, "\x7b\"type\":\"message\",\"id\":\"A\",\"message\":\"\"\x7d"⟩] := by
  decide

/-- C8, amended: in every manager state, a broadcast whose envelope decodes and
whose content fails the decode into the location payload, the one inner decode
whose error the loop checks, sends nothing and changes nothing. -/
theorem broadcast_bad_content_is_dropped (m : ClientManager) (message : String)
    (rm : ReceiveMessage) (loc : LocationInfo) (e : JsonError)
    (henv : unmarshalReceiveMessage message {} = (rm, none))
    (hloc : unmarshalLocationInfo rm.Content {} = (loc, some e)) :
    handle (.broadcast message) m = ⟨m, [], false⟩ := by
  simp only [handle, handleBroadcast, henv, hloc]

theorem broadcast_bad_content_is_dropped_witness :
    unmarshalReceiveMessage badContentEnvelope {} = (⟨"A", "hello"⟩, none)
      ∧ unmarshalLocationInfo "hello" {} = ({}, some .syntaxError)
      ∧ handle (.broadcast badContentEnvelope) hubABC = ⟨hubABC, [], false⟩ :=
  ⟨by decide, by decide,
   broadcast_bad_content_is_dropped hubABC badContentEnvelope ⟨"A", "hello"⟩ {} .syntaxError
     (by decide) (by decide)⟩

/-! ## The read loop -/

theorem readLoop_frames_then_err (c : ClientRead) (frames : List String) :
    readLoop c (frames.map .frame ++ [.err])
      = (frames.map (fun f => .signal (.broadcast (marshalMessage ⟨c.id, "", f⟩)))
          ++ [.signal (.unregister c), .socketClose], true) := by
  induction frames with
  | nil => rfl
  | cons f frames ih => simp [readLoop, ih]

/-- C9 fails: on a transport that fails at the first read, the read loop signals
`Unregister` twice, once in the error branch and once in the deferred function. -/
theorem read_signals_unregister_twice :
    clientA.read [.err]
      = ([.signal (.unregister clientA), .socketClose,
          .signal (.unregister clientA), .socketClose], true) := by
  decide

/-- C9, amended: for every session and every `k` frames read before the
transport fails, the read loop ends, and what it does after its `k` broadcasts
is: signal `Unregister` for its own session, close the socket, signal
`Unregister` for its own session again, close the socket.  It signals
`Unregister` exactly twice. -/
theorem read_unregisters_twice_and_returns (c : ClientRead) (frames : List String) :
    (c.read (frames.map .frame ++ [.err])).2 = true
      ∧ (c.read (frames.map .frame ++ [.err])).1
          = frames.map (fun f => .signal (.broadcast (marshalMessage ⟨c.id, "", f⟩)))
            ++ [.signal (.unregister c), .socketClose, .signal (.unregister c), .socketClose]
      ∧ ((c.read (frames.map .frame ++ [.err])).1.filter
          (fun a => a = .signal (.unregister c))).length = 2 := by
  unfold ClientRead.read
  rw [readLoop_frames_then_err]
  refine ⟨rfl, by simp, ?_⟩
  simp only [if_true, List.append_assoc, List.filter_append]
  have hnone : (frames.map (fun f => Action.signal (.broadcast (marshalMessage ⟨c.id, "", f⟩)))).filter
      (fun a => a = Action.signal (.unregister c)) = [] := by
    rw [List.filter_eq_nil_iff]
    intro a ha
    rw [List.mem_map] at ha
    obtain ⟨f, _, rfl⟩ := ha
    simp
  rw [hnone]
  simp [List.filter_cons]

/-! ## Deliveries go to members only -/

theorem handle_sent_to_member (ev : Event) (m : ClientManager) (d : Delivery)
    (hd : d ∈ (handle ev m).sent) : d.conn ∈ (handle ev m).mgr.clients := by
  cases ev with
  | register conn =>
    simp only [handle, handleRegister] at hd ⊢
    rw [send_mgr, send_mgr]
    have hin : conn ∈ (Proc.insert ⟨m, [], false⟩ conn).mgr.clients := by
      by_cases hc : conn ∈ m.clients <;> simp [Proc.insert, hc]
    rcases send_sent_mem _ _ _ d hd with h | h
    · rcases send_sent_mem _ _ _ d h with h' | h'
      · have hnil : (Proc.insert ⟨m, [], false⟩ conn).sent = [] := by
          by_cases hc : conn ∈ m.clients <;> simp [Proc.insert, hc]
        rw [hnil] at h'
        simp at h'
      · rw [h']; exact hin
    · rw [h]; exact hin
  | unregister conn =>
    simp only [handle] at hd ⊢
    by_cases hc : conn ∈ m.clients
    · unfold handleUnregister at hd ⊢
      rw [if_pos hc] at hd ⊢
      simp only [managerSend_eq] at hd ⊢
      rw [fanout_mgr]
      rcases fanout_sent_mem _ d _ _ hd with h | h
      · have hnil : ((Proc.close ⟨m, [], false⟩ conn).delete conn).sent = [] := by
          by_cases hcl : conn ∈ m.closed <;> simp [Proc.close, Proc.delete, hcl]
        rw [hnil] at h
        simp at h
      · exact (List.mem_filter.1 h.1).1
    · rw [handleUnregister_absent conn m hc] at hd
      simp at hd
  | broadcast message =>
    simp only [handle] at hd ⊢
    rw [handleBroadcast_mgr]
    unfold handleBroadcast at hd
    split at hd
    · simp at hd
    · split at hd
      · simp at hd
      · simp only at hd
        split_ifs at hd
        · simp at hd
        · rcases fanout_sent_mem _ d _ _ hd with h | h
          · simp at h
          · exact h.1
        · unfold broadcastUpdate at hd
          rw [updateLoop_eq] at hd
          rcases fanout_sent_mem _ d _ _ hd with h | h
          · simp at h
          · exact h.1
        · simp at hd

/-- C10: after any events handled from the empty registry, every frame sent
while the next event is handled goes to a session that is in the map once that
event's change of the map is made: the session itself on `Register`, a remaining
member on `Unregister`, a member on `Broadcast`. -/
theorem deliveries_go_to_members (evs : List Event) (ev : Event) (d : Delivery)
    (hd : d ∈ (handle ev (start evs boot).mgr).sent) :
    d.conn ∈ (handle ev (start evs boot).mgr).mgr.clients
      ∧ (∀ conn, ev = .register conn → d.conn = conn)
      ∧ (∀ conn, ev = .unregister conn →
          d.conn ≠ conn ∧ d.conn ∈ (start evs boot).mgr.clients)
      ∧ (∀ message, ev = .broadcast message → d.conn ∈ (start evs boot).mgr.clients) := by
  refine ⟨handle_sent_to_member ev _ d hd, ?_, ?_, ?_⟩
  · intro conn hev
    subst hev
    simp only [handle, handleRegister] at hd
    rcases send_sent_mem _ _ _ d hd with h | h
    · rcases send_sent_mem _ _ _ d h with h' | h'
      · have hnil : (Proc.insert ⟨(start evs boot).mgr, [], false⟩ conn).sent = [] := by
          by_cases hc : conn ∈ (start evs boot).mgr.clients <;> simp [Proc.insert, hc]
        rw [hnil] at h'
        simp at h'
      · rw [h']
    · rw [h]
  · intro conn hev
    subst hev
    have hmem := handle_sent_to_member _ _ d hd
    simp only [handle] at hd hmem
    by_cases hc : conn ∈ (start evs boot).mgr.clients
    · unfold handleUnregister at hmem
      rw [if_pos hc, managerSend_eq, fanout_mgr] at hmem
      by_cases hcl : conn ∈ (start evs boot).mgr.closed
      · unfold handleUnregister at hd
        rw [if_pos hc, managerSend_eq] at hd
        rcases fanout_sent_mem _ d _ _ hd with h | h
        · simp [Proc.close, Proc.delete, hcl] at h
        · have := (List.mem_filter.1 h.1)
          simp [Proc.close, Proc.delete, hcl] at this
          exact ⟨this.2, this.1⟩
      · simp [Proc.close, Proc.delete, hcl] at hmem
        exact ⟨hmem.2, hmem.1⟩
    · rw [handleUnregister_absent conn _ hc] at hd
      simp at hd
  · intro message hev
    subst hev
    have hmem := handle_sent_to_member _ _ d hd
    simp only [handle] at hmem
    rwa [handleBroadcast_mgr] at hmem

theorem deliveries_go_to_members_witness :
    (⟨clientA, "\x7b\"type\":\"closed\",\"id\":\"B\"\x7d"⟩ : Delivery)
        ∈ (handle (.unregister clientB)
            (start [.register clientA, .register clientB] boot).mgr).sent
      ∧ clientA ∈ (handle (.unregister clientB)
            (start [.register clientA, .register clientB] boot).mgr).mgr.clients :=
  ⟨by decide,
   (deliveries_go_to_members [.register clientA, .register clientB] (.unregister clientB)
      ⟨clientA, "\x7b\"type\":\"closed\",\"id\":\"B\"\x7d"⟩ (by decide)).1⟩

/-! ## Membership changes only by `Register` and `Unregister` -/

theorem handleRegister_clients (conn : ClientRead) (m : ClientManager) :
    (handleRegister conn m).mgr.clients
      = if conn ∈ m.clients then m.clients else m.clients ++ [conn] := by
  unfold handleRegister
  simp only [send_mgr]
  by_cases hc : conn ∈ m.clients <;> simp [Proc.insert, hc]

theorem handleRegister_closed_eq (conn : ClientRead) (m : ClientManager) :
    (handleRegister conn m).mgr.closed = m.closed := by
  unfold handleRegister
  simp only [send_mgr]
  by_cases hc : conn ∈ m.clients <;> simp [Proc.insert, hc]

theorem handleUnregister_clients (conn : ClientRead) (m : ClientManager) :
    (handleUnregister conn m).mgr.clients = m.clients
      ∨ (handleUnregister conn m).mgr.clients = m.clients.filter (fun c => c ≠ conn) := by
  unfold handleUnregister
  by_cases hc : conn ∈ m.clients
  · rw [if_pos hc, managerSend_eq, fanout_mgr]
    by_cases hcl : conn ∈ m.closed
    · left; simp [Proc.close, Proc.delete, hcl]
    · right; simp [Proc.close, Proc.delete, hcl]
  · rw [if_neg hc]; exact Or.inl rfl

theorem handle_adds_only_registered (ev : Event) (m : ClientManager) (c : ClientRead)
    (hout : c ∉ m.clients) (hin : c ∈ (handle ev m).mgr.clients) : ev = .register c := by
  cases ev with
  | register conn =>
    simp only [handle, handleRegister_clients] at hin
    by_cases hc : conn ∈ m.clients
    · rw [if_pos hc] at hin; exact absurd hin hout
    · rw [if_neg hc] at hin
      rcases List.mem_append.1 hin with h | h
      · exact absurd h hout
      · simp at h; rw [h]
  | unregister conn =>
    simp only [handle] at hin
    rcases handleUnregister_clients conn m with h | h
    · rw [h] at hin; exact absurd hin hout
    · rw [h] at hin; exact absurd (List.mem_filter.1 hin).1 hout
  | broadcast message =>
    simp only [handle, handleBroadcast_mgr] at hin
    exact absurd hin hout

theorem handle_removes_only_unregistered (ev : Event) (m : ClientManager) (c : ClientRead)
    (hin : c ∈ m.clients) (hout : c ∉ (handle ev m).mgr.clients) : ev = .unregister c := by
  cases ev with
  | register conn =>
    simp only [handle, handleRegister_clients] at hout
    by_cases hc : conn ∈ m.clients
    · rw [if_pos hc] at hout; exact absurd hin hout
    · rw [if_neg hc] at hout
      exact absurd (List.mem_append.2 (Or.inl hin)) hout
  | unregister conn =>
    simp only [handle] at hout
    rcases handleUnregister_clients conn m with h | h
    · rw [h] at hout; exact absurd hin hout
    · rw [h] at hout
      by_cases hc : c = conn
      · rw [hc]
      · exact absurd (List.mem_filter.2 ⟨hin, by simpa using hc⟩) hout
  | broadcast message =>
    simp only [handle, handleBroadcast_mgr] at hout
    exact absurd hin hout

theorem start_keeps_out (evs : List Event) (p : Proc) (s : ClientRead)
    (hno : Event.register s ∉ evs) (hs : s ∉ p.mgr.clients) :
    s ∉ (start evs p).mgr.clients := by
  induction evs generalizing p with
  | nil => exact hs
  | cons ev evs ih =>
    by_cases hp : p.panicked = true
    · rw [start_panicked _ _ hp]; exact hs
    · have hp0 : p.panicked = false := by simpa using hp
      rw [start_cons ev evs p hp0]
      apply ih
      · exact fun h => hno (List.mem_cons_of_mem _ h)
      · intro hin
        have := handle_adds_only_registered ev p.mgr s hs hin
        exact hno (this ▸ List.mem_cons_self _ _)

theorem handle_closed_grows (ev : Event) (m : ClientManager) (c : ClientRead)
    (hc : c ∈ m.closed) : c ∈ (handle ev m).mgr.closed := by
  cases ev with
  | register conn => simp only [handle, handleRegister_closed_eq]; exact hc
  | unregister conn =>
    simp only [handle]
    unfold handleUnregister
    by_cases hm : conn ∈ m.clients
    · rw [if_pos hm, managerSend_eq, fanout_mgr]
      by_cases hcl : conn ∈ m.closed
      · simp [Proc.close, Proc.delete, hcl, hc]
      · simp [Proc.close, Proc.delete, hcl, hc]
    · rw [if_neg hm]; exact hc
  | broadcast message => simp only [handle, handleBroadcast_mgr]; exact hc

theorem start_closed_stays_out (evs : List Event) (p : Proc) (s : ClientRead)
    (hcl : s ∈ p.mgr.closed) (hs : s ∉ p.mgr.clients) (hlive : (start evs p).panicked = false) :
    s ∉ (start evs p).mgr.clients := by
  induction evs generalizing p with
  | nil => exact hs
  | cons ev evs ih =>
    by_cases hp : p.panicked = true
    · rw [start_panicked _ _ hp]; exact hs
    · have hp0 : p.panicked = false := by simpa using hp
      rw [start_cons ev evs p hp0] at hlive ⊢
      by_cases hq : (handle ev p.mgr).panicked = true
      · have hstop := start_panicked evs
          ⟨(handle ev p.mgr).mgr, p.sent ++ (handle ev p.mgr).sent, (handle ev p.mgr).panicked⟩ hq
        rw [hstop] at hlive
        simp [hq] at hlive
      · refine ih ⟨(handle ev p.mgr).mgr, p.sent ++ (handle ev p.mgr).sent,
          (handle ev p.mgr).panicked⟩ (handle_closed_grows ev p.mgr s hcl) ?_ hlive
        intro hin
        have hev := handle_adds_only_registered ev p.mgr s hs hin
        subst hev
        exact hq (handleRegister_closed s p.mgr hcl).1

/-- C11: in every registry state, once `Unregister(s)` is handled `s` is not in
the map, and it stays out over every later run of events that has no
`Register(s)`, so over every run of `Unregister` and `Broadcast` events.  One
event puts a session into the map only if it is the `Register` of that session
and takes one out only if it is its `Unregister`; and a member that was
unregistered is in the map of no later state the loop is alive in. -/
theorem unregistered_session_stays_out (m : ClientManager) (hm : Reachable m)
    (s : ClientRead) :
    s ∉ (handle (.unregister s) m).mgr.clients
      ∧ (handle (.unregister s) m).panicked = false
      ∧ (∀ (evs : List Event) (sent : List Delivery), Event.register s ∉ evs →
          s ∉ (start evs ⟨(handle (.unregister s) m).mgr, sent, false⟩).mgr.clients)
      ∧ (∀ (ev : Event) (m' : ClientManager) (c : ClientRead),
          c ∉ m'.clients → c ∈ (handle ev m').mgr.clients → ev = .register c)
      ∧ (∀ (ev : Event) (m' : ClientManager) (c : ClientRead),
          c ∈ m'.clients → c ∉ (handle ev m').mgr.clients → ev = .unregister c)
      ∧ (s ∈ m.clients → ∀ (evs : List Event) (sent : List Delivery),
          (start evs ⟨(handle (.unregister s) m).mgr, sent, false⟩).panicked = false →
          s ∉ (start evs ⟨(handle (.unregister s) m).mgr, sent, false⟩).mgr.clients) := by
  have hwf := reachable_wf m hm
  have hout : s ∉ (handle (.unregister s) m).mgr.clients := by
    by_cases hs : s ∈ m.clients
    · simp only [handle, handleUnregister_member s m hwf hs]
      intro h
      have := (List.mem_filter.1 h).2
      simp at this
    · simpa only [handle, handleUnregister_absent s m hs] using hs
  have hlive : (handle (.unregister s) m).panicked = false := by
    by_cases hs : s ∈ m.clients
    · simp only [handle, handleUnregister_member s m hwf hs]
    · simp only [handle, handleUnregister_absent s m hs]
  refine ⟨hout, hlive, ?_, handle_adds_only_registered, handle_removes_only_unregistered, ?_⟩
  · intro evs sent hno
    exact start_keeps_out evs _ s hno hout
  · intro hs evs sent hrun
    have hcl : s ∈ (handle (.unregister s) m).mgr.closed := by
      simp only [handle, handleUnregister_member s m hwf hs]
      exact List.mem_cons_self _ _
    exact start_closed_stays_out evs _ s hcl hout hrun

theorem unregistered_session_stays_out_witness :
    Reachable hubABC
      ∧ (handle (.unregister clientB) hubABC).mgr = ⟨[clientA, clientC], [clientB]⟩
      ∧ Event.register clientB ∉ [Event.broadcast chatEnvelope, .unregister clientB,
          .unregister clientA, .register clientA]
      ∧ clientB ∉ (start [.broadcast chatEnvelope, .unregister clientB, .unregister clientA,
          .register clientA] ⟨(handle (.unregister clientB) hubABC).mgr, [], false⟩).mgr.clients :=
  ⟨⟨[.register clientA, .register clientB, .register clientC], by decide, by decide⟩,
   by decide, by decide,
   (unregistered_session_stays_out hubABC
      ⟨[.register clientA, .register clientB, .register clientC], by decide, by decide⟩
      clientB).2.2.1 _ _ (by decide)⟩

/-! ## Payload types without a fan-out -/

/-- C12: in every manager state, a broadcast whose envelope decodes and whose
content has type `login`, whatever else the content holds and whether or not
the rest of it decodes, sends nothing and leaves the manager as it was. -/
theorem broadcast_login_is_noop (m : ClientManager) (message : String) (rm : ReceiveMessage)
    (henv : unmarshalReceiveMessage message {} = (rm, none))
    (htype : (unmarshalLocationInfo rm.Content {}).1.Type_ = LoginType) :
    handle (.broadcast message) m = ⟨m, [], false⟩ := by
  cases hloc : unmarshalLocationInfo rm.Content {} with
  | mk loc err =>
    rw [hloc] at htype
    cases err with
    | some e => simp only [handle, handleBroadcast, henv, hloc]
    | none =>
      have ht : loc.Type_ = LoginType := htype
      simp only [handle, handleBroadcast, henv, hloc, ht, if_true]

theorem broadcast_login_is_noop_witness :
    unmarshalReceiveMessage loginEnvelope {}
        = (⟨"A", "\x7b\"type\":\"login\",\"name\":\"ann\",\"token\":[1,2]\x7d"⟩, none)
      ∧ unmarshalLocationInfo "\x7b\"type\":\"login\",\"name\":\"ann\",\"token\":[1,2]\x7d" {}
        = (⟨"login", "", "", "", "", "", "ann", "", ""⟩, none)
      ∧ handle (.broadcast loginEnvelope) hubABC = ⟨hubABC, [], false⟩ :=
  ⟨by decide, by decide,
   broadcast_login_is_noop hubABC loginEnvelope
     ⟨"A", "\x7b\"type\":\"login\",\"name\":\"ann\",\"token\":[1,2]\x7d"⟩ (by decide) (by decide)⟩

/-- C13: in every manager state, a broadcast whose envelope and inner payload
decode and whose type is none of `login`, `message` and `update`, an empty
type included, sends nothing, leaves the manager as it was and does not
panic. -/
theorem broadcast_unknown_type_is_dropped (m : ClientManager) (message : String)
    (rm : ReceiveMessage) (loc : LocationInfo)
    (henv : unmarshalReceiveMessage message {} = (rm, none))
    (hloc : unmarshalLocationInfo rm.Content {} = (loc, none))
    (h1 : loc.Type_ ≠ LoginType) (h2 : loc.Type_ ≠ MessageType) (h3 : loc.Type_ ≠ UpdateType) :
    handle (.broadcast message) m = ⟨m, [], false⟩ := by
  simp only [handle, handleBroadcast, henv, hloc, h1, h2, h3, if_false]

theorem broadcast_unknown_type_is_dropped_witness :
    unmarshalReceiveMessage pingEnvelope {}
        = (⟨"A", "\x7b\"type\":\"ping\",\"x\":\"1\"\x7d"⟩, none)
      ∧ unmarshalLocationInfo "\x7b\"type\":\"ping\",\"x\":\"1\"\x7d" {}
        = (⟨"ping", "", "", "", "1", "", "", "", ""⟩, none)
      ∧ handle (.broadcast pingEnvelope) hubABC = ⟨hubABC, [], false⟩
      ∧ unmarshalLocationInfo "\x7b\"x\":\"1\"\x7d" {}
        = (⟨"", "", "", "", "1", "", "", "", ""⟩, none)
      ∧ handle (.broadcast untypedEnvelope) hubABC = ⟨hubABC, [], false⟩ :=
  ⟨by decide, by decide,
   broadcast_unknown_type_is_dropped hubABC pingEnvelope
     ⟨"A", "\x7b\"type\":\"ping\",\"x\":\"1\"\x7d"⟩ ⟨"ping", "", "", "", "1", "", "", "", ""⟩
     (by decide) (by decide) (by decide) (by decide) (by decide),
   by decide,
   broadcast_unknown_type_is_dropped hubABC untypedEnvelope
     ⟨"A", "\x7b\"x\":\"1\"\x7d"⟩ ⟨"", "", "", "", "1", "", "", "", ""⟩
     (by decide) (by decide) (by decide) (by decide) (by decide)⟩

/-! ## Decoding what `Marshal` wrote -/

theorem hexVal_hexDigit : ∀ n : Nat, n < 16 → hexVal (hexDigit n) = some n := by
  decide

theorem unquoteFrom_plain (fuel : Nat) (c : Char) (rest : List Char) (h1 : c ≠ '"')
    (h2 : c ≠ '\\') (h3 : ¬ c.toNat < 0x20) :
    unquoteFrom (fuel + 1) (c :: rest)
      = (unquoteFrom fuel rest).map (fun p => (c :: p.1, p.2)) := by
  simp only [unquoteFrom, if_neg h1, if_neg h2, if_neg h3]

theorem unquoteFrom_escape (fuel : Nat) (e x : Char) (rest : List Char) (h1 : e ≠ 'u')
    (h2 : escapeChar e = some x) :
    unquoteFrom (fuel + 1) ('\\' :: e :: rest)
      = (unquoteFrom fuel rest).map (fun p => (x :: p.1, p.2)) := by
  have hq : ¬ '\\' = '"' := by decide
  simp only [unquoteFrom, if_neg hq, if_true, if_neg h1, h2]

theorem unquoteFrom_hex (fuel : Nat) (rr : Nat) (rest1 rest2 : List Char)
    (h1 : hex4 rest1 = some (rr, rest2)) (h2 : isSurrogate rr = false) :
    unquoteFrom (fuel + 1) ('\\' :: 'u' :: rest1)
      = (unquoteFrom fuel rest2).map (fun p => (Char.ofNat rr :: p.1, p.2)) := by
  have hq : ¬ '\\' = '"' := by decide
  simp only [unquoteFrom, if_neg hq, if_true, h1, h2]
  simp

theorem hex4_two_digits (n : Nat) (hn : n < 256) (rest : List Char) :
    hex4 ('0' :: '0' :: hexDigit (n / 16) :: hexDigit (n % 16) :: rest) = some (n, rest) := by
  have h0 : hexVal '0' = some 0 := by decide
  have ha := hexVal_hexDigit (n / 16) (by omega)
  have hb := hexVal_hexDigit (n % 16) (by omega)
  simp only [hex4, h0, ha, hb]
  have : ((0 * 16 + 0) * 16 + n / 16) * 16 + n % 16 = n := by omega
  rw [this]

theorem unquote_quoteChar (fuel : Nat) (c : Char) (rest : List Char) :
    unquoteFrom (fuel + 1) (quoteChar c ++ rest)
      = (unquoteFrom fuel rest).map (fun p => (c :: p.1, p.2)) := by
  by_cases h1 : c = '"'
  · rw [h1]; exact unquoteFrom_escape fuel '"' '"' rest (by decide) (by decide)
  by_cases h2 : c = '\\'
  · rw [h2]; exact unquoteFrom_escape fuel '\\' '\\' rest (by decide) (by decide)
  by_cases h3 : c = '\n'
  · rw [h3]; exact unquoteFrom_escape fuel 'n' '\n' rest (by decide) (by decide)
  by_cases h4 : c = '\r'
  · rw [h4]; exact unquoteFrom_escape fuel 'r' '\r' rest (by decide) (by decide)
  by_cases h5 : c = '\t'
  · rw [h5]; exact unquoteFrom_escape fuel 't' '\t' rest (by decide) (by decide)
  by_cases h6 : c = Char.ofNat 8
  · rw [h6]; exact unquoteFrom_escape fuel 'b' (Char.ofNat 8) rest (by decide) (by decide)
  by_cases h7 : c = Char.ofNat 12
  · rw [h7]; exact unquoteFrom_escape fuel 'f' (Char.ofNat 12) rest (by decide) (by decide)
  by_cases h8 : c.toNat < 0x20 ∨ c = '<' ∨ c = '>' ∨ c = '&'
  · have hq : quoteChar c
        = ['\\', 'u', '0', '0', hexDigit (c.toNat / 16), hexDigit (c.toNat % 16)] := by
      simp only [quoteChar, if_neg h1, if_neg h2, if_neg h3, if_neg h4, if_neg h5, if_neg h6,
        if_neg h7, if_pos h8]
    have hn : c.toNat < 256 := by
      rcases h8 with h | h | h | h
      · omega
      · rw [h]; decide
      · rw [h]; decide
      · rw [h]; decide
    have hs : isSurrogate c.toNat = false := by
      simp only [isSurrogate, Bool.and_eq_false_iff, decide_eq_false_iff_not]
      left; omega
    rw [hq]
    have := unquoteFrom_hex fuel c.toNat _ rest (hex4_two_digits c.toNat hn rest) hs
    simp only [List.cons_append, List.nil_append]
    rw [this, Char.ofNat_toNat]
  by_cases h9 : c = Char.ofNat 0x2028
  · rw [h9]
    exact unquoteFrom_hex fuel 0x2028 ('2' :: '0' :: '2' :: '8' :: rest) rest rfl
      (by decide)
  by_cases h10 : c = Char.ofNat 0x2029
  · rw [h10]
    exact unquoteFrom_hex fuel 0x2029 ('2' :: '0' :: '2' :: '9' :: rest) rest rfl
      (by decide)
  have hq : quoteChar c = [c] := by
    simp only [quoteChar, if_neg h1, if_neg h2, if_neg h3, if_neg h4, if_neg h5, if_neg h6,
      if_neg h7, if_neg h8, if_neg h9, if_neg h10]
  rw [hq]
  exact unquoteFrom_plain fuel c rest h1 h2 (fun h => h8 (Or.inl h))

theorem quoteChar_length_pos (c : Char) : 1 ≤ (quoteChar c).length := by
  cases h : quoteChar c with
  | nil =>
    have := unquote_quoteChar 0 c ['"']
    rw [h] at this
    simp [unquoteFrom] at this
  | cons x xs => simp

theorem quoted_length (chars : List Char) :
    chars.length ≤ ((chars.map quoteChar).flatten).length := by
  induction chars with
  | nil => simp
  | cons c cs ih =>
    have := quoteChar_length_pos c
    simp only [List.map_cons, List.flatten_cons, List.length_append, List.length_cons]
    omega

theorem unquote_quoted (chars rest : List Char) (fuel : Nat) (hf : chars.length < fuel) :
    unquoteFrom fuel ((chars.map quoteChar).flatten ++ '"' :: rest) = some (chars, rest) := by
  induction chars generalizing fuel with
  | nil =>
    obtain ⟨f, rfl⟩ : ∃ f, fuel = f + 1 := ⟨fuel - 1, by omega⟩
    simp [unquoteFrom]
  | cons c cs ih =>
    obtain ⟨f, rfl⟩ : ∃ f, fuel = f + 1 := ⟨fuel - 1, by omega⟩
    have hcs : cs.length < f := by simp only [List.length_cons] at hf; omega
    rw [List.map_cons, List.flatten_cons, List.append_assoc, unquote_quoteChar, ih f hcs]
    rfl

theorem quote_data (s : String) (rest : List Char) :
    (quote s).data ++ rest = '"' :: ((s.data.map quoteChar).flatten ++ '"' :: rest) := by
  simp [quote]

theorem unquote_quote (s : String) (rest : List Char) :
    unquoteFrom (((s.data.map quoteChar).flatten ++ '"' :: rest).length + 1)
        ((s.data.map quoteChar).flatten ++ '"' :: rest)
      = some (s.data, rest) := by
  apply unquote_quoted
  have := quoted_length s.data
  simp only [List.length_append, List.length_cons]
  omega

theorem parseGoal_string (fuel : Nat) (s : String) (rest : List Char) :
    parseGoal (fuel + 1) .value ((quote s).data ++ rest) = some (.str s, rest) := by
  rw [quote_data]
  have h1 : ¬ '"' = '{' := by decide
  have h2 : ¬ '"' = '[' := by decide
  simp only [parseGoal, if_neg h1, if_neg h2, if_true, unquote_quote]
  rfl

theorem skipSpace_quote (s : String) (rest : List Char) :
    skipSpace ((quote s).data ++ rest) = (quote s).data ++ rest := by
  rw [quote_data]
  simp [skipSpace, isSpace]

theorem parseGoal_members_step (fuel : Nat) (acc : List (String × JVal)) (cs : List Char) :
    parseGoal (fuel + 1) (.members acc) ('"' :: cs)
      = match unquoteFrom (cs.length + 1) cs with
        | none => none
        | some (k, rest) =>
          match skipSpace rest with
          | ':' :: rest1 =>
            match parseGoal fuel .value (skipSpace rest1) with
            | none => none
            | some (v, rest2) =>
              match skipSpace rest2 with
              | ',' :: rest3 =>
                parseGoal fuel (.members (acc ++ [(String.mk k, v)])) (skipSpace rest3)
              | '}' :: rest3 => some (.obj (acc ++ [(String.mk k, v)]), rest3)
              | _ => none
          | _ => none := by
  simp only [parseGoal, if_true]

theorem parseGoal_last_member (fuel : Nat) (acc : List (String × JVal)) (key val : String)
    (rest : List Char) :
    parseGoal (fuel + 2) (.members acc)
        ((quote key).data ++ ':' :: ((quote val).data ++ '}' :: rest))
      = some (.obj (acc ++ [(key, .str val)]), rest) := by
  have hsp : skipSpace (':' :: ((quote val).data ++ '}' :: rest))
      = ':' :: ((quote val).data ++ '}' :: rest) := by
    simp [skipSpace, isSpace]
  have hsp2 : skipSpace ('}' :: rest) = '}' :: rest := by simp [skipSpace, isSpace]
  rw [quote_data, parseGoal_members_step, unquote_quote]
  simp only [hsp, skipSpace_quote, parseGoal_string, hsp2]

theorem parseGoal_next_member (fuel : Nat) (acc : List (String × JVal)) (key val next : String)
    (rest : List Char) :
    parseGoal (fuel + 2) (.members acc)
        ((quote key).data ++ ':' :: ((quote val).data ++ ',' :: ((quote next).data ++ rest)))
      = parseGoal (fuel + 1) (.members (acc ++ [(key, .str val)]))
          ((quote next).data ++ rest) := by
  have hsp : skipSpace (':' :: ((quote val).data ++ ',' :: ((quote next).data ++ rest)))
      = ':' :: ((quote val).data ++ ',' :: ((quote next).data ++ rest)) := by
    simp [skipSpace, isSpace]
  have hsp2 : skipSpace (',' :: ((quote next).data ++ rest))
      = ',' :: ((quote next).data ++ rest) := by simp [skipSpace, isSpace]
  rw [quote_data, parseGoal_members_step, unquote_quote]
  simp only [hsp, skipSpace_quote, parseGoal_string, hsp2]

theorem parseGoal_object_open (fuel : Nat) (key : String) (rest : List Char) :
    parseGoal (fuel + 1) .value ('{' :: ((quote key).data ++ rest))
      = parseGoal fuel (.members []) ((quote key).data ++ rest) := by
  have hsp := skipSpace_quote key rest
  rw [quote_data] at hsp ⊢
  simp only [parseGoal, if_true, hsp]
  split
  · rename_i heq
    have hc : '"' = '}' := (List.cons.inj heq).1
    exact absurd hc (by decide)
  · rfl

theorem marshalMessage_data_both (i f : String) (hi : i ≠ "") (hf : f ≠ "") :
    (marshalMessage { Sender := i, Content := f }).data
      = '{' :: ((quote "sender").data ++ ':' :: ((quote i).data ++ ',' ::
          ((quote "content").data ++ ':' :: ((quote f).data ++ '}' :: [])))) := by
  have hk1 : (quote "sender").data = "\"sender\"".data := by decide
  have hk2 : (quote "content").data = "\"content\"".data := by decide
  rw [hk1, hk2]
  simp [marshalMessage, Message.members, hi, hf, String.intercalate, String.intercalate.go]

theorem marshalMessage_data_sender (i : String) (hi : i ≠ "") :
    (marshalMessage { Sender := i, Content := "" }).data
      = '{' :: ((quote "sender").data ++ ':' :: ((quote i).data ++ '}' :: [])) := by
  have hk1 : (quote "sender").data = "\"sender\"".data := by decide
  rw [hk1]
  simp [marshalMessage, Message.members, hi, String.intercalate, String.intercalate.go]

theorem marshalMessage_data_content (f : String) (hf : f ≠ "") :
    (marshalMessage { Sender := "", Content := f }).data
      = '{' :: ((quote "content").data ++ ':' :: ((quote f).data ++ '}' :: [])) := by
  have hk2 : (quote "content").data = "\"content\"".data := by decide
  rw [hk2]
  simp [marshalMessage, Message.members, hf, String.intercalate, String.intercalate.go]

theorem parseJson_object (data : String) (body : List Char) (v : JVal)
    (hdata : data.data = '{' :: body)
    (hparse : ∀ k, parseGoal (k + 4) .value ('{' :: body) = some (v, [])) :
    parseJson data = some v := by
  unfold parseJson
  rw [hdata]
  have hsp : skipSpace ('{' :: body) = '{' :: body := by simp [skipSpace, isSpace]
  obtain ⟨k, hk⟩ : ∃ k, 2 * ('{' :: body).length + 2 = k + 4 :=
    ⟨2 * body.length, by simp only [List.length_cons]; omega⟩
  rw [hsp, hk, hparse k]
  simp [skipSpace]

theorem parseJson_envelope_both (i f : String) (hi : i ≠ "") (hf : f ≠ "") :
    parseJson (marshalMessage { Sender := i, Content := f })
      = some (.obj [("sender", .str i), ("content", .str f)]) := by
  apply parseJson_object _ _ _ (marshalMessage_data_both i f hi hf)
  intro k
  rw [parseGoal_object_open, parseGoal_next_member, parseGoal_last_member]
  rfl

theorem parseJson_envelope_sender (i : String) (hi : i ≠ "") :
    parseJson (marshalMessage { Sender := i, Content := "" })
      = some (.obj [("sender", .str i)]) := by
  apply parseJson_object _ _ _ (marshalMessage_data_sender i hi)
  intro k
  rw [parseGoal_object_open, parseGoal_last_member]
  rfl

theorem parseJson_envelope_content (f : String) (hf : f ≠ "") :
    parseJson (marshalMessage { Sender := "", Content := f })
      = some (.obj [("content", .str f)]) := by
  apply parseJson_object _ _ _ (marshalMessage_data_content f hf)
  intro k
  rw [parseGoal_object_open, parseGoal_last_member]
  rfl

theorem unmarshal_marshalMessage (i f : String) :
    unmarshalReceiveMessage (marshalMessage { Sender := i, Content := f }) {}
      = (⟨i, f⟩, none) := by
  have h1 : findField ReceiveMessage.tags "sender" = some "sender" := by decide
  have h2 : findField ReceiveMessage.tags "content" = some "content" := by decide
  by_cases hi : i = ""
  · by_cases hf : f = ""
    · subst hi; subst hf; decide
    · subst hi
      simp [unmarshalReceiveMessage, unmarshalStruct, parseJson_envelope_content f hf,
        decodeMembers, decodeMember, h2, ReceiveMessage.setField]
  · by_cases hf : f = ""
    · subst hf
      simp [unmarshalReceiveMessage, unmarshalStruct, parseJson_envelope_sender i hi,
        decodeMembers, decodeMember, h1, ReceiveMessage.setField]
    · simp [unmarshalReceiveMessage, unmarshalStruct, parseJson_envelope_both i f hi hf,
        decodeMembers, decodeMember, h1, h2, ReceiveMessage.setField]

/-! ## What the read loop hands to the registry -/

theorem filterMap_broadcastOf_envelopes (c : ClientRead) (frames : List String) :
    List.filterMap (broadcastOf ∘ fun f =>
        Action.signal (.broadcast (marshalMessage { Sender := c.id, Content := f }))) frames
      = frames.map (fun f => marshalMessage { Sender := c.id, Content := f }) := by
  induction frames with
  | nil => rfl
  | cons f frames ih => simp [List.filterMap_cons, broadcastOf, ih]

/-- C15: for every session and every `k` frames read before the transport
fails, the first `k` actions of the read loop are the sends on the manager's
`broadcast` channel of the envelopes `Message{Sender: id, Content: frame}`, one
per frame in the order read; they are all the broadcasts the loop makes, and no
signal to `unregister` comes among them.  Decoded as the control loop decodes
it, the envelope of a frame has the session's id as sender and the frame as
content. -/
theorem read_hands_envelopes_in_order (c : ClientRead) (frames : List String) :
    (c.read (frames.map .frame ++ [.err])).1.take frames.length
        = frames.map (fun f =>
            .signal (.broadcast (marshalMessage { Sender := c.id, Content := f })))
      ∧ (c.read (frames.map .frame ++ [.err])).1.filterMap broadcastOf
        = frames.map (fun f => marshalMessage { Sender := c.id, Content := f })
      ∧ (∀ conn, Action.signal (.unregister conn)
          ∉ (c.read (frames.map .frame ++ [.err])).1.take frames.length)
      ∧ (c.read (frames.map .frame ++ [.err])).1.drop frames.length
        = [.signal (.unregister c), .socketClose, .signal (.unregister c), .socketClose]
      ∧ ((c.read (frames.map .frame ++ [.err])).1.filterMap broadcastOf).map
          (fun envelope => unmarshalReceiveMessage envelope {})
        = frames.map (fun f => (⟨c.id, f⟩, none)) := by
  have htrace : (c.read (frames.map .frame ++ [.err])).1
      = frames.map (fun f =>
            Action.signal (.broadcast (marshalMessage { Sender := c.id, Content := f })))
          ++ [.signal (.unregister c), .socketClose, .signal (.unregister c), .socketClose] := by
    unfold ClientRead.read
    rw [readLoop_frames_then_err]
    simp
  have hlen : (frames.map (fun f =>
      Action.signal (.broadcast (marshalMessage { Sender := c.id, Content := f })))).length
      = frames.length := List.length_map _ _
  have henvs : List.filterMap broadcastOf
      (frames.map (fun f =>
            Action.signal (.broadcast (marshalMessage { Sender := c.id, Content := f })))
          ++ [.signal (.unregister c), .socketClose, .signal (.unregister c), .socketClose])
      = frames.map (fun f => marshalMessage { Sender := c.id, Content := f }) := by
    rw [List.filterMap_append, List.filterMap_map]
    have hpre := filterMap_broadcastOf_envelopes c frames
    rw [hpre]
    simp [broadcastOf]
  rw [htrace]
  refine ⟨?_, henvs, ?_, ?_, ?_⟩
  · rw [← hlen, List.take_left']
    exact hlen.symm ▸ rfl
  · intro conn hmem
    rw [← hlen, List.take_left'] at hmem
    · rw [List.mem_map] at hmem
      obtain ⟨f, _, hf⟩ := hmem
      simp at hf
    · exact hlen.symm ▸ rfl
  · rw [← hlen, List.drop_left']
    exact hlen.symm ▸ rfl
  · rw [henvs, List.map_map]
    apply List.map_congr_left
    intro f _
    exact unmarshal_marshalMessage c.id f

/-! ## One serialization per position broadcast -/

/-- C16: in every registry state, an update broadcast runs as the loop without
the assignment to `content.Id` would: every member is sent one and the same
frame, the one serialized before the loop, whose id is the envelope's sender. -/
theorem update_frame_serialized_once (m : ClientManager) (hm : Reachable m)
    (message : String) (rm : ReceiveMessage) (loc : LocationInfo)
    (henv : unmarshalReceiveMessage message {} = (rm, none))
    (hloc : unmarshalLocationInfo rm.Content {} = (loc, none))
    (htype : loc.Type_ = UpdateType) :
    handle (.broadcast message) m
        = m.clients.foldl
            (fun q conn => q.send conn (marshalLocationInfo
              { Type_ := "update", Id := rm.Sender, Momentum := loc.Momentum,
                Angle := loc.Angle, X := loc.X, Y := loc.Y, Name := loc.Name, Sex := loc.Sex,
                Icon := loc.Icon }))
            ⟨m, [], false⟩
      ∧ (handle (.broadcast message) m).sent
        = m.clients.map (fun c => ⟨c, marshalLocationInfo
            { Type_ := "update", Id := rm.Sender, Momentum := loc.Momentum,
              Angle := loc.Angle, X := loc.X, Y := loc.Y, Name := loc.Name, Sex := loc.Sex,
              Icon := loc.Icon }⟩)
      ∧ (∀ d1 ∈ (handle (.broadcast message) m).sent,
          ∀ d2 ∈ (handle (.broadcast message) m).sent, d1.frame = d2.frame) := by
  have hwf := reachable_wf m hm
  have hne1 : ¬ UpdateType = LoginType := by decide
  have hne2 : ¬ UpdateType = MessageType := by decide
  have hrun : handle (.broadcast message) m = broadcastUpdate rm loc m := by
    simp only [handle, handleBroadcast, henv, hloc, htype, hne1, hne2, if_false, if_true]
  refine ⟨?_, ?_, ?_⟩
  · rw [hrun]
    unfold broadcastUpdate
    rw [updateLoop_eq]
  · rw [hrun, broadcastUpdate_wf rm loc m hwf]
  · rw [hrun, broadcastUpdate_wf rm loc m hwf]
    intro d1 h1 d2 h2
    simp only [List.mem_map] at h1 h2
    obtain ⟨_, _, rfl⟩ := h1
    obtain ⟨_, _, rfl⟩ := h2
    rfl

theorem update_frame_serialized_once_witness :
    Reachable ⟨[clientA, clientB], []⟩
      ∧ unmarshalReceiveMessage updateEnvelope {}
        = (⟨"A", "\x7b\"type\":\"update\",\"x\":\"10\",\"y\":\"20\"\x7d"⟩, none)
      ∧ (handle (.broadcast updateEnvelope) ⟨[clientA, clientB], []⟩).sent
        = [⟨clientA, "\x7b\"type\":\"update\",\"id\":\"A\",\"momentum\":\"\",\"angle\":\"\",\"x\":\"10\",\"y\":\"20\",\"name\":\"\",\"sex\":\"\",\"icon\":\"\"\x7d"⟩,
           ⟨clientB, "\x7b\"type\":\"update\",\"id\":\"A\",\"momentum\":\"\",\"angle\":\"\",\"x\":\"10\",\"y\":\"20\",\"name\":\"\",\"sex\":\"\",\"icon\":\"\"\x7d"⟩] :=
  ⟨⟨[.register clientA, .register clientB], by decide, by decide⟩,
   by decide,
   (update_frame_serialized_once ⟨[clientA, clientB], []⟩
      ⟨[.register clientA, .register clientB], by decide, by decide⟩
      updateEnvelope ⟨"A", "\x7b\"type\":\"update\",\"x\":\"10\",\"y\":\"20\"\x7d"⟩
      ⟨"update", "", "", "", "10", "20", "", "", ""⟩ (by decide) (by decide) (by decide)).2.1.trans
     (by decide)⟩

/-! ## No panic when every session is registered at most once -/

theorem registrations_take_sublist (evs : List Event) (n : Nat) :
    (registrations (evs.take n)).Sublist (registrations evs) := by
  induction evs generalizing n with
  | nil => simp [registrations]
  | cons ev evs ih =>
    cases n with
    | zero => simp [registrations]
    | succ n =>
      cases ev with
      | register conn =>
        simp only [List.take_succ_cons, registrations]
        exact (ih n).cons₂ conn
      | unregister conn =>
        simp only [List.take_succ_cons, registrations]
        exact ih n
      | broadcast message =>
        simp only [List.take_succ_cons, registrations]
        exact ih n

theorem start_single_registration (evs : List Event) (p : Proc) (hp : p.panicked = false)
    (hwf : WellFormed p.mgr) (hreg : (registrations evs).Nodup)
    (hfresh : ∀ c, c ∈ p.mgr.clients ∨ c ∈ p.mgr.closed → c ∉ registrations evs) :
    (start evs p).panicked = false := by
  induction evs generalizing p with
  | nil => exact hp
  | cons ev evs ih =>
    rw [start_cons ev evs p hp]
    cases ev with
    | register conn =>
      simp only [registrations, List.nodup_cons] at hreg
      have hnm : conn ∉ p.mgr.clients := fun h =>
        hfresh conn (Or.inl h) (by simp [registrations])
      have hnc : conn ∉ p.mgr.closed := fun h =>
        hfresh conn (Or.inr h) (by simp [registrations])
      have hrun := handleRegister_open conn p.mgr hnc
      have hlive : (handle (.register conn) p.mgr).panicked = false := by
        simp only [handle, hrun]
      have hwf' := handle_wf (.register conn) p.mgr hwf hlive
      refine ih ⟨_, _, _⟩ hlive hwf' hreg.2 ?_
      intro c hc
      simp only [handle, hrun, if_neg hnm, List.mem_append, List.mem_singleton] at hc
      rcases hc with (h | h) | h
      · exact fun hin => hfresh c (Or.inl h) (by simp [registrations, hin])
      · rw [h]; exact hreg.1
      · exact fun hin => hfresh c (Or.inr h) (by simp [registrations, hin])
    | unregister conn =>
      simp only [registrations] at hreg hfresh
      by_cases hm : conn ∈ p.mgr.clients
      · have hrun := handleUnregister_member conn p.mgr hwf hm
        have hlive : (handle (.unregister conn) p.mgr).panicked = false := by
          simp only [handle, hrun]
        have hwf' := handle_wf (.unregister conn) p.mgr hwf hlive
        refine ih ⟨_, _, _⟩ hlive hwf' hreg ?_
        intro c hc
        simp only [handle, hrun, List.mem_filter, List.mem_cons] at hc
        rcases hc with h | h | h
        · exact hfresh c (Or.inl h.1)
        · rw [h]; exact hfresh conn (Or.inl hm)
        · exact hfresh c (Or.inr h)
      · have hrun := handleUnregister_absent conn p.mgr hm
        have hlive : (handle (.unregister conn) p.mgr).panicked = false := by
          simp only [handle, hrun]
        have hwf' := handle_wf (.unregister conn) p.mgr hwf hlive
        refine ih ⟨_, _, _⟩ hlive hwf' hreg ?_
        intro c hc
        simp only [handle, hrun] at hc
        exact hfresh c hc
    | broadcast message =>
      simp only [registrations] at hreg hfresh
      have hlive : (handle (.broadcast message) p.mgr).panicked = false := by
        simp only [handle]; exact handleBroadcast_panicked message p.mgr hwf
      have hwf' := handle_wf (.broadcast message) p.mgr hwf hlive
      refine ih ⟨_, _, _⟩ hlive hwf' hreg ?_
      intro c hc
      simp only [handle, handleBroadcast_mgr] at hc
      exact hfresh c hc

/-- C17: over every run of events from the empty registry in which no session
is registered twice, the loop never panics, so it never sends on a closed
channel and never closes a channel twice; and after every prefix of the run
the loop is alive and every member's channel is open. -/
theorem single_registration_never_panics (evs : List Event)
    (hreg : (registrations evs).Nodup) :
    (start evs boot).panicked = false
      ∧ (∀ c ∈ (start evs boot).mgr.clients, c ∉ (start evs boot).mgr.closed)
      ∧ ∀ n : Nat, (start (evs.take n) boot).panicked = false
          ∧ ∀ c ∈ (start (evs.take n) boot).mgr.clients,
              c ∉ (start (evs.take n) boot).mgr.closed := by
  have hboot : WellFormed boot.mgr := ⟨List.nodup_nil, by simp [boot]⟩
  have hall : ∀ l : List Event, (registrations l).Nodup →
      (start l boot).panicked = false
        ∧ ∀ c ∈ (start l boot).mgr.clients, c ∉ (start l boot).mgr.closed := by
    intro l hl
    have hlive := start_single_registration l boot rfl hboot hl (by simp [boot])
    exact ⟨hlive, (start_wf l boot hboot hlive).2⟩
  refine ⟨(hall evs hreg).1, (hall evs hreg).2, ?_⟩
  intro n
  exact hall (evs.take n) (hreg.sublist (registrations_take_sublist evs n))

theorem single_registration_never_panics_witness :
    (registrations [.register clientA, .register clientB, .broadcast chatEnvelope,
        .unregister clientA, .unregister clientA, .register clientC]).Nodup
      ∧ (start [.register clientA, .register clientB, .broadcast chatEnvelope,
          .unregister clientA, .unregister clientA, .register clientC] boot).panicked = false
      ∧ (start [.register clientA, .register clientB, .broadcast chatEnvelope,
          .unregister clientA, .unregister clientA, .register clientC] boot).mgr
        = ⟨[clientB, clientC], [clientA]⟩ :=
  ⟨by decide,
   (single_registration_never_panics [.register clientA, .register clientB,
      .broadcast chatEnvelope, .unregister clientA, .unregister clientA, .register clientC]
      (by decide)).1,
   by decide⟩

/-! ## What an event leaves alone -/

/-- C18: in every manager state and for every raw message, handling
`Broadcast(message)` leaves the map and the set of closed channels as they
were, whatever the message decodes to; an event that changes the manager is a
`Register` or an `Unregister`. -/
theorem broadcast_leaves_manager_alone (m : ClientManager) (message : String) :
    (handle (.broadcast message) m).mgr.clients = m.clients
      ∧ (handle (.broadcast message) m).mgr.closed = m.closed
      ∧ ∀ ev : Event, (handle ev m).mgr = m
          ∨ (∃ c, ev = .register c) ∨ (∃ c, ev = .unregister c) := by
  have h : (handle (.broadcast message) m).mgr = m := by
    simp only [handle, handleBroadcast_mgr]
  refine ⟨by rw [h], by rw [h], ?_⟩
  intro ev
  cases ev with
  | register conn => exact Or.inr (Or.inl ⟨conn, rfl⟩)
  | unregister conn => exact Or.inr (Or.inr ⟨conn, rfl⟩)
  | broadcast msg => left; simp only [handle, handleBroadcast_mgr]

/-- C19: in every manager state, `Register(s)` sends no frame to a session
other than `s`, leaves every other session in or out of the map as it was, and
closes no channel. -/
theorem register_touches_only_its_session (m : ClientManager) (s : ClientRead) :
    (∀ d ∈ (handle (.register s) m).sent, d.conn = s)
      ∧ (∀ c, c ≠ s → received (handle (.register s) m).sent c = [])
      ∧ (∀ c, c ≠ s → (c ∈ (handle (.register s) m).mgr.clients ↔ c ∈ m.clients))
      ∧ (handle (.register s) m).mgr.closed = m.closed := by
  have hsent : ∀ d ∈ (handle (.register s) m).sent, d.conn = s := by
    intro d hd
    simp only [handle, handleRegister] at hd
    rcases send_sent_mem _ _ _ d hd with h | h
    · rcases send_sent_mem _ _ _ d h with h' | h'
      · have hnil : (Proc.insert ⟨m, [], false⟩ s).sent = [] := by
          by_cases hc : s ∈ m.clients <;> simp [Proc.insert, hc]
        rw [hnil] at h'
        simp at h'
      · rw [h']
    · rw [h]
  refine ⟨hsent, ?_, ?_, ?_⟩
  · intro c hc
    unfold received
    rw [List.map_eq_nil_iff, List.filter_eq_nil_iff]
    intro d hd
    have := hsent d hd
    simp only [decide_eq_true_eq]
    rw [this]
    exact fun h => hc h.symm
  · intro c hc
    simp only [handle, handleRegister_clients]
    by_cases hs : s ∈ m.clients
    · rw [if_pos hs]
    · rw [if_neg hs, List.mem_append, List.mem_singleton]
      exact ⟨fun h => h.resolve_right hc, Or.inl⟩
  · simp only [handle, handleRegister_closed_eq]

theorem register_touches_only_its_session_witness :
    clientA ≠ clientC
      ∧ received (handle (.register clientC) ⟨[clientA, clientB], []⟩).sent clientA = []
      ∧ (handle (.register clientC) ⟨[clientA, clientB], []⟩).mgr.clients
        = [clientA, clientB, clientC] :=
  ⟨by decide,
   (register_touches_only_its_session ⟨[clientA, clientB], []⟩ clientC).2.1 clientA (by decide),
   by decide⟩

/-! ## Registration of a fresh session -/

theorem registrations_append (xs ys : List Event) :
    registrations (xs ++ ys) = registrations xs ++ registrations ys := by
  induction xs with
  | nil => rfl
  | cons ev xs ih => cases ev <;> simp [registrations, ih]

theorem handle_closed_from (ev : Event) (m : ClientManager) (c : ClientRead)
    (hc : c ∈ (handle ev m).mgr.closed) : c ∈ m.closed ∨ c ∈ m.clients := by
  cases ev with
  | register conn =>
    simp only [handle, handleRegister_closed_eq] at hc
    exact Or.inl hc
  | unregister conn =>
    simp only [handle] at hc
    unfold handleUnregister at hc
    by_cases hm : conn ∈ m.clients
    · rw [if_pos hm, managerSend_eq, fanout_mgr] at hc
      by_cases hcl : conn ∈ m.closed
      · simp [Proc.close, Proc.delete, hcl] at hc
        exact Or.inl hc
      · simp [Proc.close, Proc.delete, hcl] at hc
        rcases hc with h | h
        · rw [h]; exact Or.inr hm
        · exact Or.inl h
    · rw [if_neg hm] at hc
      exact Or.inl hc
  | broadcast message =>
    simp only [handle, handleBroadcast_mgr] at hc
    exact Or.inl hc

theorem registrations_cons_mem (ev : Event) (evs : List Event) (c : ClientRead)
    (hc : c ∈ registrations evs) : c ∈ registrations (ev :: evs) := by
  cases ev <;> simp [registrations, hc]

theorem start_known_sessions (evs : List Event) (p : Proc) (c : ClientRead)
    (hc : c ∈ (start evs p).mgr.clients ∨ c ∈ (start evs p).mgr.closed) :
    (c ∈ p.mgr.clients ∨ c ∈ p.mgr.closed) ∨ c ∈ registrations evs := by
  induction evs generalizing p with
  | nil => exact Or.inl hc
  | cons ev evs ih =>
    by_cases hp : p.panicked = true
    · rw [start_panicked _ _ hp] at hc; exact Or.inl hc
    · have hp0 : p.panicked = false := by simpa using hp
      rw [start_cons ev evs p hp0] at hc
      rcases ih ⟨(handle ev p.mgr).mgr, p.sent ++ (handle ev p.mgr).sent,
          (handle ev p.mgr).panicked⟩ hc with (h | h) | h
      · by_cases hin : c ∈ p.mgr.clients
        · exact Or.inl (Or.inl hin)
        · have hev := handle_adds_only_registered ev p.mgr c hin h
          subst hev
          exact Or.inr (by simp [registrations])
      · rcases handle_closed_from ev p.mgr c h with h' | h'
        · exact Or.inl (Or.inr h')
        · exact Or.inl (Or.inl h')
      · exact Or.inr (registrations_cons_mem ev evs c h)

/-- C1: after every run of events from the empty registry, `Register(s)` for a
session `s`, no session being registered twice in the run and this event,
sends exactly two frames, both to `s`: the welcome frame with `s.id`, then the
update frame with the default position; `s` is a member afterwards, and the
loop is alive before and after. -/
theorem register_welcome_then_update (evs : List Event) (s : ClientRead)
    (hreg : (registrations (evs ++ [.register s])).Nodup) :
    (start evs boot).panicked = false
      ∧ (handle (.register s) (start evs boot).mgr).sent
        = [⟨s, marshalWelcome ⟨"welcome", s.id⟩⟩,
           ⟨s, marshalLocationInfo ⟨"update", s.id, "0.036", "3.063", "0", "0", s.id, "-1", ""⟩⟩]
      ∧ s ∈ (handle (.register s) (start evs boot).mgr).mgr.clients
      ∧ (handle (.register s) (start evs boot).mgr).panicked = false := by
  rw [registrations_append] at hreg
  have hsplit := List.nodup_append.1 hreg
  have hfresh : s ∉ registrations evs := by
    intro h
    exact hsplit.2.2 h (by simp [registrations])
  have hboot : WellFormed boot.mgr := ⟨List.nodup_nil, by simp [boot]⟩
  have hlive := start_single_registration evs boot rfl hboot hsplit.1 (by simp [boot])
  have hopen : s ∉ (start evs boot).mgr.closed := by
    intro h
    rcases start_known_sessions evs boot s (Or.inr h) with h' | h'
    · simp [boot] at h'
    · exact hfresh h'
  refine ⟨hlive, ?_⟩
  simp only [handle, handleRegister_open s _ hopen, true_and]
  by_cases hs : s ∈ (start evs boot).mgr.clients <;> simp [hs]

theorem register_welcome_then_update_witness :
    (registrations ([.register clientA, .register clientB, .unregister clientA,
        .broadcast chatEnvelope] ++ [.register clientC])).Nodup
      ∧ (start [.register clientA, .register clientB, .unregister clientA,
          .broadcast chatEnvelope] boot).mgr = ⟨[clientB], [clientA]⟩
      ∧ (handle (.register clientC) (start [.register clientA, .register clientB,
          .unregister clientA, .broadcast chatEnvelope] boot).mgr).sent
        = [⟨clientC, "\x7b\"type\":\"welcome\",\"id\":\"C\"\x7d"⟩,
           ⟨clientC, "\x7b\"type\":\"update\",\"id\":\"C\",\"momentum\":\"0.036\",\"angle\":\"3.063\",\"x\":\"0\",\"y\":\"0\",\"name\":\"C\",\"sex\":\"-1\",\"icon\":\"\"\x7d"⟩]
      ∧ clientC ∈ (handle (.register clientC) (start [.register clientA, .register clientB,
          .unregister clientA, .broadcast chatEnvelope] boot).mgr).mgr.clients :=
  ⟨by decide, by decide,
   (register_welcome_then_update [.register clientA, .register clientB, .unregister clientA,
      .broadcast chatEnvelope] clientC (by decide)).2.1.trans (by decide),
   (register_welcome_then_update [.register clientA, .register clientB, .unregister clientA,
      .broadcast chatEnvelope] clientC (by decide)).2.2.1⟩

end Tadpole
